import Mathlib

/-!
# Verification of the cVoronoi incremental Delaunay/Voronoi construction

This file contains a shallow embedding of the geometric predicates and of the
combinatorial mesh operations of the cVoronoi repository
(`src/geometry3d.h`, `src/delaunay2d.h`, `src/delaunay3d.h`, `src/voronoi3d.h`),
together with theorems that settle a list of claims about the natural-language
specification of that code.

Machine integers (C `unsigned long` coordinates) are modelled as `ℕ`; all exact
determinant computations are performed on `ℤ` (the C code uses GMP arbitrary
precision integers, which are exact as well, so no wrap-around modelling is
needed).  Floating-point quantities are not modelled; where a claim touches the
combinatorial structure around a floating-point computation, that computation is
abstracted by an oracle parameter.

Components of the repository that are referenced by the sources in `src/` but
whose files are missing (`geometry.h` with the 2D exact predicates,
`triangle.h`, `tetrahedron.h`, `queues.h`) are modelled from the specification;
each such definition carries a doc comment starting with `Modelled from the
spec:`.
-/

namespace CVoronoi

/-- An integer-grid point in 3D: the 52-bit unsigned integer coordinates used by
the exact predicates of `geometry3d.h` (C type `unsigned long`). -/
structure P3 where
  x : ℕ
  y : ℕ
  z : ℕ
  deriving DecidableEq, Repr

/-- A signed 3D vector of arbitrary-precision integers (GMP `mpz_t` values). -/
structure V3 where
  x : ℤ
  y : ℤ
  z : ℤ
  deriving DecidableEq, Repr

/-- Relative coordinates `a - e` as computed by `mpz_sub` on the (exactly
represented) inputs; this is the `s1 = a - d` step of `geometry_orient_exact`
and the `s1 = a - e` step of `geometry_in_sphere_exact`. -/
def P3.sub (a e : P3) : V3 :=
  ⟨(a.x : ℤ) - (e.x : ℤ), (a.y : ℤ) - (e.y : ℤ), (a.z : ℤ) - (e.z : ℤ)⟩

/-- The 3×3 determinant with rows `s1, s2, s3`, computed in the same three
steps as the `mpz` accumulation in `geometry_orient_exact`
(`src/geometry3d.h:120-133`). -/
def det3 (s1 s2 s3 : V3) : ℤ :=
  s1.z * (s2.x * s3.y - s3.x * s2.y)
    + s2.z * (s3.x * s1.y - s1.x * s3.y)
    + s3.z * (s1.x * s2.y - s2.x * s1.y)

/-- `geometry_orient_exact` from `src/geometry3d.h:83-136`: the sign (`mpz_sgn`)
of the 3×3 determinant of the relative coordinates `[a-d; b-d; c-d]`. -/
def geometry3d_orient_exact (a b c d : P3) : ℤ :=
  Int.sign (det3 (a.sub d) (b.sub d) (c.sub d))

/-- The 4×4 lifting determinant computed by `geometry_in_sphere_exact`
(`src/geometry3d.h:143-244`), mirroring the source's intermediate quantities
`ab, bc, cd, da, ac, bd` and its four accumulation steps. -/
def inSphereDet (a b c d e : P3) : ℤ :=
  let s1 := a.sub e
  let s2 := b.sub e
  let s3 := c.sub e
  let s4 := d.sub e
  let ab := s1.x * s2.y - s2.x * s1.y
  let bc := s2.x * s3.y - s3.x * s2.y
  let cd := s3.x * s4.y - s4.x * s3.y
  let da := s4.x * s1.y - s1.x * s4.y
  let ac := s1.x * s3.y - s3.x * s1.y
  let bd := s2.x * s4.y - s4.x * s2.y
  (s4.x * s4.x + s4.y * s4.y + s4.z * s4.z) * (s1.z * bc - s2.z * ac + s3.z * ab)
    - (s3.x * s3.x + s3.y * s3.y + s3.z * s3.z) * (s4.z * ab + s1.z * bd + s2.z * da)
    + (s2.x * s2.x + s2.y * s2.y + s2.z * s2.z) * (s3.z * da + s4.z * ac + s1.z * cd)
    - (s1.x * s1.x + s1.y * s1.y + s1.z * s1.z) * (s2.z * cd - s3.z * bd + s4.z * bc)

/-- `geometry_in_sphere_exact` from `src/geometry3d.h:143-244`: the sign
(`mpz_sgn`) of the lifting determinant. -/
def geometry3d_in_sphere_exact (a b c d e : P3) : ℤ :=
  Int.sign (inSphereDet a b c d e)

/-! ## Vector helpers used to state the geometric meaning of the predicates -/

/-- Cross product of integer vectors. -/
def V3.cross (u v : V3) : V3 :=
  ⟨u.y * v.z - u.z * v.y, u.z * v.x - u.x * v.z, u.x * v.y - u.y * v.x⟩

/-- Dot product of integer vectors. -/
def V3.dot (u v : V3) : ℤ :=
  u.x * v.x + u.y * v.y + u.z * v.z

/-- The position vector of a grid point. -/
def P3.toV (p : P3) : V3 := ⟨(p.x : ℤ), (p.y : ℤ), (p.z : ℤ)⟩

/-- Four points are coplanar when some genuine plane with integer normal vector
contains all of them. -/
def Coplanar (a b c d : P3) : Prop :=
  ∃ n : V3, ∃ k : ℤ,
    n ≠ ⟨0, 0, 0⟩ ∧ V3.dot n a.toV = k ∧ V3.dot n b.toV = k ∧
      V3.dot n c.toV = k ∧ V3.dot n d.toV = k

lemma V3.ne_zero_iff (n : V3) : n ≠ ⟨0, 0, 0⟩ ↔ n.x ≠ 0 ∨ n.y ≠ 0 ∨ n.z ≠ 0 := by
  cases n with
  | mk nx ny nz =>
    simp only [ne_eq, V3.mk.injEq]
    tauto

/-- Componentwise cofactor identity: `det3 u v w * t = (u⬝t)(v×w) + (v⬝t)(w×u)
+ (w⬝t)(u×v)` in the `x` component. -/
lemma det3_mul_x (u v w t : V3) :
    det3 u v w * t.x =
      V3.dot u t * (V3.cross v w).x + V3.dot v t * (V3.cross w u).x +
        V3.dot w t * (V3.cross u v).x := by
  simp only [det3, V3.dot, V3.cross]
  ring

lemma det3_mul_y (u v w t : V3) :
    det3 u v w * t.y =
      V3.dot u t * (V3.cross v w).y + V3.dot v t * (V3.cross w u).y +
        V3.dot w t * (V3.cross u v).y := by
  simp only [det3, V3.dot, V3.cross]
  ring

lemma det3_mul_z (u v w t : V3) :
    det3 u v w * t.z =
      V3.dot u t * (V3.cross v w).z + V3.dot v t * (V3.cross w u).z +
        V3.dot w t * (V3.cross u v).z := by
  simp only [det3, V3.dot, V3.cross]
  ring

/-- If a nonzero vector is orthogonal to all three rows, the determinant
vanishes. -/
lemma det3_eq_zero_of_orth (u v w n : V3) (hn : n ≠ ⟨0, 0, 0⟩)
    (hu : V3.dot u n = 0) (hv : V3.dot v n = 0) (hw : V3.dot w n = 0) :
    det3 u v w = 0 := by
  have hx := det3_mul_x u v w n
  have hy := det3_mul_y u v w n
  have hz := det3_mul_z u v w n
  rw [hu, hv, hw] at hx hy hz
  simp only [zero_mul, add_zero] at hx hy hz
  rcases (V3.ne_zero_iff n).mp hn with h | h | h
  · exact (mul_eq_zero.mp hx).resolve_right h
  · exact (mul_eq_zero.mp hy).resolve_right h
  · exact (mul_eq_zero.mp hz).resolve_right h

/-- Every nonzero integer vector admits a nonzero orthogonal vector. -/
lemma exists_orth (u : V3) (hu : u ≠ ⟨0, 0, 0⟩) :
    ∃ n : V3, n ≠ ⟨0, 0, 0⟩ ∧ V3.dot n u = 0 := by
  by_cases hxy : u.x = 0 ∧ u.y = 0
  · refine ⟨⟨1, 0, 0⟩, ?_, ?_⟩
    · simp [V3.ne_zero_iff]
    · simp [V3.dot, hxy.1]
  · refine ⟨⟨u.y, -u.x, 0⟩, ?_, ?_⟩
    · rw [V3.ne_zero_iff]
      push_neg at hxy
      by_contra hc
      push_neg at hc
      obtain ⟨h1, h2, -⟩ := hc
      rcases eq_or_ne u.x 0 with hx | hx
      · exact hxy hx h1
      · exact hx (by simpa using h2)
    · simp only [V3.dot]
      ring

/-- BAC-CAB transfer: if `u × v = 0`, `u ≠ 0` and `n ⊥ u`, then `n ⊥ v`. -/
lemma dot_eq_zero_of_cross_eq_zero (u v n : V3) (huv : V3.cross u v = ⟨0, 0, 0⟩)
    (hu : u ≠ ⟨0, 0, 0⟩) (hnu : V3.dot n u = 0) : V3.dot n v = 0 := by
  -- componentwise BAC-CAB identity:
  -- (n·v) * u.c = (n·u) * v.c + (n × (u × v)).c
  have hx : V3.dot n v * u.x = V3.dot n u * v.x +
      (n.y * (V3.cross u v).z - n.z * (V3.cross u v).y) := by
    simp only [V3.dot, V3.cross]; ring
  have hy : V3.dot n v * u.y = V3.dot n u * v.y +
      (n.z * (V3.cross u v).x - n.x * (V3.cross u v).z) := by
    simp only [V3.dot, V3.cross]; ring
  have hz : V3.dot n v * u.z = V3.dot n u * v.z +
      (n.x * (V3.cross u v).y - n.y * (V3.cross u v).x) := by
    simp only [V3.dot, V3.cross]; ring
  rw [huv, hnu] at hx hy hz
  simp only [zero_mul, mul_zero, sub_zero, zero_add, zero_sub, neg_zero, add_zero] at hx hy hz
  rcases (V3.ne_zero_iff u).mp hu with h | h | h
  · exact (mul_eq_zero.mp hx).resolve_right h
  · exact (mul_eq_zero.mp hy).resolve_right h
  · exact (mul_eq_zero.mp hz).resolve_right h

/-- The scalar triple product: `(u × v) ⬝ w = det3 u v w`. -/
lemma cross_dot_eq_det3 (u v w : V3) : V3.dot (V3.cross u v) w = det3 u v w := by
  simp only [V3.dot, V3.cross, det3]
  ring

lemma cross_dot_self_left (u v : V3) : V3.dot (V3.cross u v) u = 0 := by
  simp only [V3.dot, V3.cross]; ring

lemma cross_dot_self_right (u v : V3) : V3.dot (V3.cross u v) v = 0 := by
  simp only [V3.dot, V3.cross]; ring

/-- If the rows are degenerate (zero determinant) there is a common nonzero
orthogonal vector. -/
lemma exists_orth_of_det3_eq_zero (u v w : V3) (h : det3 u v w = 0) :
    ∃ n : V3, n ≠ ⟨0, 0, 0⟩ ∧ V3.dot n u = 0 ∧ V3.dot n v = 0 ∧ V3.dot n w = 0 := by
  by_cases huv : V3.cross u v = ⟨0, 0, 0⟩
  · by_cases huw : V3.cross u w = ⟨0, 0, 0⟩
    · by_cases hvw : V3.cross v w = ⟨0, 0, 0⟩
      · -- all cross products vanish: the three rows are pairwise parallel
        by_cases hu : u = ⟨0, 0, 0⟩
        · by_cases hv : v = ⟨0, 0, 0⟩
          · by_cases hw : w = ⟨0, 0, 0⟩
            · exact ⟨⟨0, 0, 1⟩, by simp [V3.ne_zero_iff],
                by simp [V3.dot, hu], by simp [V3.dot, hv], by simp [V3.dot, hw]⟩
            · obtain ⟨n, hn, hnw⟩ := exists_orth w hw
              exact ⟨n, hn, by simp [V3.dot, hu], by simp [V3.dot, hv], hnw⟩
          · obtain ⟨n, hn, hnv⟩ := exists_orth v hv
            refine ⟨n, hn, by simp [V3.dot, hu], hnv, ?_⟩
            exact dot_eq_zero_of_cross_eq_zero v w n hvw hv hnv
        · obtain ⟨n, hn, hnu⟩ := exists_orth u hu
          exact ⟨n, hn, hnu, dot_eq_zero_of_cross_eq_zero u v n huv hu hnu,
            dot_eq_zero_of_cross_eq_zero u w n huw hu hnu⟩
      · -- v × w ≠ 0: use it as normal vector
        refine ⟨V3.cross v w, hvw, ?_, cross_dot_self_left v w, cross_dot_self_right v w⟩
        have : V3.dot (V3.cross v w) u = det3 v w u := cross_dot_eq_det3 v w u
        have hcyc : det3 v w u = det3 u v w := by simp only [det3]; ring
        rw [this, hcyc, h]
    · -- u × w ≠ 0
      refine ⟨V3.cross u w, huw, cross_dot_self_left u w, ?_, cross_dot_self_right u w⟩
      have : V3.dot (V3.cross u w) v = det3 u w v := cross_dot_eq_det3 u w v
      have hswap : det3 u w v = -det3 u v w := by simp only [det3]; ring
      rw [this, hswap, h, neg_zero]
  · -- u × v ≠ 0
    refine ⟨V3.cross u v, huv, cross_dot_self_left u v, cross_dot_self_right u v, ?_⟩
    rw [cross_dot_eq_det3, h]

/-- Translation identity relating the determinant on `d`-relative rows to the
one on `a`-relative rows. -/
lemma det3_sub_rows (a b c d : P3) :
    det3 (a.sub d) (b.sub d) (c.sub d) = -det3 (b.sub a) (c.sub a) (d.sub a) := by
  simp only [det3, P3.sub]
  ring

/-- The `d`-relative determinant vanishes exactly on coplanar configurations. -/
lemma det3_eq_zero_iff_coplanar (a b c d : P3) :
    det3 (a.sub d) (b.sub d) (c.sub d) = 0 ↔ Coplanar a b c d := by
  constructor
  · intro h
    have h' : det3 (b.sub a) (c.sub a) (d.sub a) = 0 := by
      have := det3_sub_rows a b c d
      linarith
    obtain ⟨n, hn, hu, hv, hw⟩ := exists_orth_of_det3_eq_zero _ _ _ h'
    refine ⟨n, V3.dot n a.toV, hn, rfl, ?_, ?_, ?_⟩
    · have : V3.dot n (b.sub a) = V3.dot n b.toV - V3.dot n a.toV := by
        simp only [V3.dot, P3.sub, P3.toV]; ring
      linarith
    · have : V3.dot n (c.sub a) = V3.dot n c.toV - V3.dot n a.toV := by
        simp only [V3.dot, P3.sub, P3.toV]; ring
      linarith
    · have : V3.dot n (d.sub a) = V3.dot n d.toV - V3.dot n a.toV := by
        simp only [V3.dot, P3.sub, P3.toV]; ring
      linarith
  · rintro ⟨n, k, hn, ha, hb, hc, hd⟩
    refine det3_eq_zero_of_orth _ _ _ n hn ?_ ?_ ?_
    · have : V3.dot (a.sub d) n = V3.dot n a.toV - V3.dot n d.toV := by
        simp only [V3.dot, P3.sub, P3.toV]; ring
      linarith
    · have : V3.dot (b.sub d) n = V3.dot n b.toV - V3.dot n d.toV := by
        simp only [V3.dot, P3.sub, P3.toV]; ring
      linarith
    · have : V3.dot (c.sub d) n = V3.dot n c.toV - V3.dot n d.toV := by
        simp only [V3.dot, P3.sub, P3.toV]; ring
      linarith

/-- The orientation determinant is the negated dot product of the upward normal
of the counterclockwise triangle `(a,b,c)` with `d - a`. -/
lemma det3_eq_neg_normal_dot (a b c d : P3) :
    det3 (a.sub d) (b.sub d) (c.sub d) =
      -V3.dot (V3.cross (b.sub a) (c.sub a)) (d.sub a) := by
  simp only [det3, V3.dot, V3.cross, P3.sub]
  ring

/-- C2: `geometry_orient_exact` returns exactly one of -1, 0, +1, equal to the
sign of the exactly evaluated 3×3 determinant of the relative coordinates
`[a-d; b-d; c-d]`; it is positive exactly when `d` lies below the plane through
`a, b, c` oriented counterclockwise from above (i.e. when the upward normal
`(b-a) × (c-a)` makes a negative dot product with `d-a`), and it is zero exactly
when the four points are coplanar. -/
theorem C2_geometry3d_orient_exact_correct (a b c d : P3) :
    geometry3d_orient_exact a b c d = Int.sign (det3 (a.sub d) (b.sub d) (c.sub d)) ∧
      (geometry3d_orient_exact a b c d = -1 ∨ geometry3d_orient_exact a b c d = 0 ∨
        geometry3d_orient_exact a b c d = 1) ∧
      (geometry3d_orient_exact a b c d = 1 ↔
        V3.dot (V3.cross (b.sub a) (c.sub a)) (d.sub a) < 0) ∧
      (geometry3d_orient_exact a b c d = 0 ↔ Coplanar a b c d) := by
  refine ⟨rfl, ?_, ?_, ?_⟩
  · unfold geometry3d_orient_exact
    rcases lt_trichotomy (det3 (a.sub d) (b.sub d) (c.sub d)) 0 with h | h | h
    · exact Or.inl (Int.sign_eq_neg_one_iff_neg.mpr h)
    · exact Or.inr (Or.inl (Int.sign_eq_zero_iff_zero.mpr h))
    · exact Or.inr (Or.inr (Int.sign_eq_one_iff_pos.mpr h))
  · unfold geometry3d_orient_exact
    rw [Int.sign_eq_one_iff_pos, det3_eq_neg_normal_dot, neg_pos]
  · unfold geometry3d_orient_exact
    rw [Int.sign_eq_zero_iff_zero]
    exact det3_eq_zero_iff_coplanar a b c d

/-- Sanity check: the example from the doc comment of `geometry_orient_exact`
(`src/geometry3d.h:72-73`) evaluates to `1`. -/
example : geometry3d_orient_exact ⟨0, 0, 0⟩ ⟨0, 0, 1⟩ ⟨0, 1, 0⟩ ⟨1, 0, 0⟩ = 1 := by
  decide

/-! ## Geometric meaning of the in-sphere predicate (claim C3) -/

/-- The scaled squared distance `|q·a - p|²` of a grid point `a` to the rational
point `p / q`.  A sphere with rational center `p / q` and squared radius
`R / q²` passes through `a` exactly when this equals `R`; every sphere through
four non-coplanar grid points is of this form. -/
def P3.sphereLhs (q p1 p2 p3 : ℤ) (a : P3) : ℤ :=
  (q * (a.x : ℤ) - p1) ^ 2 + (q * (a.y : ℤ) - p2) ^ 2 + (q * (a.z : ℤ) - p3) ^ 2

lemma int_sign_pos_iff (a : ℤ) : 0 < Int.sign a ↔ 0 < a := by
  constructor
  · intro h
    rcases lt_trichotomy a 0 with h' | h' | h'
    · rw [Int.sign_eq_neg_one_iff_neg.mpr h'] at h
      omega
    · subst h'
      simp at h
    · exact h'
  · intro h
    rw [Int.sign_eq_one_iff_pos.mpr h]
    omega

/-- The algebraic heart of the in-sphere predicate: on a common sphere with
center `p / q` and squared radius `R / q²` through `a, b, c, d`, the lifting
determinant factors as the orientation determinant times the (scaled) defect of
`e` with respect to that sphere. -/
lemma inSphereDet_factorization (a b c d e : P3) (q p1 p2 p3 R : ℤ)
    (h1 : P3.sphereLhs q p1 p2 p3 a = R) (h2 : P3.sphereLhs q p1 p2 p3 b = R)
    (h3 : P3.sphereLhs q p1 p2 p3 c = R) (h4 : P3.sphereLhs q p1 p2 p3 d = R) :
    q ^ 2 * inSphereDet a b c d e =
      det3 (a.sub d) (b.sub d) (c.sub d) * (R - P3.sphereLhs q p1 p2 p3 e) := by
  simp only [inSphereDet, det3, P3.sub, P3.sphereLhs] at *
  linear_combination
    (-(((b.z : ℤ) - (e.z : ℤ)) * (((c.x : ℤ) - (e.x : ℤ)) * ((d.y : ℤ) - (e.y : ℤ)) -
          ((d.x : ℤ) - (e.x : ℤ)) * ((c.y : ℤ) - (e.y : ℤ)))
        + ((c.z : ℤ) - (e.z : ℤ)) * (((d.x : ℤ) - (e.x : ℤ)) * ((b.y : ℤ) - (e.y : ℤ)) -
          ((b.x : ℤ) - (e.x : ℤ)) * ((d.y : ℤ) - (e.y : ℤ)))
        + ((d.z : ℤ) - (e.z : ℤ)) * (((b.x : ℤ) - (e.x : ℤ)) * ((c.y : ℤ) - (e.y : ℤ)) -
          ((c.x : ℤ) - (e.x : ℤ)) * ((b.y : ℤ) - (e.y : ℤ))))) * h1 +
    (((a.z : ℤ) - (e.z : ℤ)) * (((c.x : ℤ) - (e.x : ℤ)) * ((d.y : ℤ) - (e.y : ℤ)) -
          ((d.x : ℤ) - (e.x : ℤ)) * ((c.y : ℤ) - (e.y : ℤ)))
        + ((c.z : ℤ) - (e.z : ℤ)) * (((d.x : ℤ) - (e.x : ℤ)) * ((a.y : ℤ) - (e.y : ℤ)) -
          ((a.x : ℤ) - (e.x : ℤ)) * ((d.y : ℤ) - (e.y : ℤ)))
        + ((d.z : ℤ) - (e.z : ℤ)) * (((a.x : ℤ) - (e.x : ℤ)) * ((c.y : ℤ) - (e.y : ℤ)) -
          ((c.x : ℤ) - (e.x : ℤ)) * ((a.y : ℤ) - (e.y : ℤ)))) * h2 +
    (-(((a.z : ℤ) - (e.z : ℤ)) * (((b.x : ℤ) - (e.x : ℤ)) * ((d.y : ℤ) - (e.y : ℤ)) -
          ((d.x : ℤ) - (e.x : ℤ)) * ((b.y : ℤ) - (e.y : ℤ)))
        + ((b.z : ℤ) - (e.z : ℤ)) * (((d.x : ℤ) - (e.x : ℤ)) * ((a.y : ℤ) - (e.y : ℤ)) -
          ((a.x : ℤ) - (e.x : ℤ)) * ((d.y : ℤ) - (e.y : ℤ)))
        + ((d.z : ℤ) - (e.z : ℤ)) * (((a.x : ℤ) - (e.x : ℤ)) * ((b.y : ℤ) - (e.y : ℤ)) -
          ((b.x : ℤ) - (e.x : ℤ)) * ((a.y : ℤ) - (e.y : ℤ))))) * h3 +
    (((a.z : ℤ) - (e.z : ℤ)) * (((b.x : ℤ) - (e.x : ℤ)) * ((c.y : ℤ) - (e.y : ℤ)) -
          ((c.x : ℤ) - (e.x : ℤ)) * ((b.y : ℤ) - (e.y : ℤ)))
        + ((b.z : ℤ) - (e.z : ℤ)) * (((c.x : ℤ) - (e.x : ℤ)) * ((a.y : ℤ) - (e.y : ℤ)) -
          ((a.x : ℤ) - (e.x : ℤ)) * ((c.y : ℤ) - (e.y : ℤ)))
        + ((c.z : ℤ) - (e.z : ℤ)) * (((a.x : ℤ) - (e.x : ℤ)) * ((b.y : ℤ) - (e.y : ℤ)) -
          ((b.x : ℤ) - (e.x : ℤ)) * ((a.y : ℤ) - (e.y : ℤ)))) * h4

/-- C3: `geometry_in_sphere_exact` returns the sign of the standard lifting
determinant (one of -1, 0, +1), and when the tetrahedron `(a,b,c,d)` is
positively oriented (counterclockwise, positive `geometry_orient_exact` in the
convention of spec §4.1), the result is positive exactly when `e` lies strictly
inside the sphere circumscribed around `a, b, c, d` (given here by its rational
center `p / q` and squared radius `R / q²`). -/
theorem C3_geometry3d_in_sphere_exact_correct (a b c d e : P3)
    (q p1 p2 p3 R : ℤ) (hq : q ≠ 0)
    (horient : 0 < geometry3d_orient_exact a b c d)
    (h1 : P3.sphereLhs q p1 p2 p3 a = R) (h2 : P3.sphereLhs q p1 p2 p3 b = R)
    (h3 : P3.sphereLhs q p1 p2 p3 c = R) (h4 : P3.sphereLhs q p1 p2 p3 d = R) :
    geometry3d_in_sphere_exact a b c d e = Int.sign (inSphereDet a b c d e) ∧
      (geometry3d_in_sphere_exact a b c d e = -1 ∨
        geometry3d_in_sphere_exact a b c d e = 0 ∨
        geometry3d_in_sphere_exact a b c d e = 1) ∧
      (0 < geometry3d_in_sphere_exact a b c d e ↔
        P3.sphereLhs q p1 p2 p3 e < R) := by
  have hq2 : (0 : ℤ) < q ^ 2 := pow_two_pos_of_ne_zero hq
  have hdet : 0 < det3 (a.sub d) (b.sub d) (c.sub d) := by
    rw [geometry3d_orient_exact, int_sign_pos_iff] at horient
    exact horient
  have hD := inSphereDet_factorization a b c d e q p1 p2 p3 R h1 h2 h3 h4
  refine ⟨rfl, ?_, ?_⟩
  · unfold geometry3d_in_sphere_exact
    rcases lt_trichotomy (inSphereDet a b c d e) 0 with h | h | h
    · exact Or.inl (Int.sign_eq_neg_one_iff_neg.mpr h)
    · exact Or.inr (Or.inl (Int.sign_eq_zero_iff_zero.mpr h))
    · exact Or.inr (Or.inr (Int.sign_eq_one_iff_pos.mpr h))
  · unfold geometry3d_in_sphere_exact
    rw [int_sign_pos_iff]
    constructor
    · intro h
      nlinarith [mul_pos hq2 h, hD, hdet]
    · intro h
      nlinarith [mul_pos hdet (show (0 : ℤ) < R - P3.sphereLhs q p1 p2 p3 e by omega),
        hD, hq2]

/-- Witness for C3 at the regular tetrahedron corner configuration
`a=(0,0,0), b=(0,0,2), c=(0,2,0), d=(2,0,0)` with circumcenter `(1,1,1)`,
squared radius `3`, and query point `e=(1,1,1)` (the center itself). -/
theorem C3_witness :
    ((1 : ℤ) ≠ 0 ∧ 0 < geometry3d_orient_exact ⟨0,0,0⟩ ⟨0,0,2⟩ ⟨0,2,0⟩ ⟨2,0,0⟩ ∧
      P3.sphereLhs 1 1 1 1 ⟨0,0,0⟩ = 3 ∧ P3.sphereLhs 1 1 1 1 ⟨0,0,2⟩ = 3 ∧
      P3.sphereLhs 1 1 1 1 ⟨0,2,0⟩ = 3 ∧ P3.sphereLhs 1 1 1 1 ⟨2,0,0⟩ = 3) ∧
    (geometry3d_in_sphere_exact ⟨0,0,0⟩ ⟨0,0,2⟩ ⟨0,2,0⟩ ⟨2,0,0⟩ ⟨1,1,1⟩ =
        Int.sign (inSphereDet ⟨0,0,0⟩ ⟨0,0,2⟩ ⟨0,2,0⟩ ⟨2,0,0⟩ ⟨1,1,1⟩) ∧
      (geometry3d_in_sphere_exact ⟨0,0,0⟩ ⟨0,0,2⟩ ⟨0,2,0⟩ ⟨2,0,0⟩ ⟨1,1,1⟩ = -1 ∨
        geometry3d_in_sphere_exact ⟨0,0,0⟩ ⟨0,0,2⟩ ⟨0,2,0⟩ ⟨2,0,0⟩ ⟨1,1,1⟩ = 0 ∨
        geometry3d_in_sphere_exact ⟨0,0,0⟩ ⟨0,0,2⟩ ⟨0,2,0⟩ ⟨2,0,0⟩ ⟨1,1,1⟩ = 1) ∧
      (0 < geometry3d_in_sphere_exact ⟨0,0,0⟩ ⟨0,0,2⟩ ⟨0,2,0⟩ ⟨2,0,0⟩ ⟨1,1,1⟩ ↔
        P3.sphereLhs 1 1 1 1 ⟨1,1,1⟩ < 3)) :=
  ⟨⟨by decide, by decide, by decide, by decide, by decide, by decide⟩,
    C3_geometry3d_in_sphere_exact_correct ⟨0,0,0⟩ ⟨0,0,2⟩ ⟨0,2,0⟩ ⟨2,0,0⟩ ⟨1,1,1⟩
      1 1 1 1 3 (by decide) (by decide) (by decide) (by decide) (by decide) (by decide)⟩

/-! ## The permutation-parity helper of the 3D flips (claim C10) -/

/-- `positive_permutation` from `src/delaunay3d.h:2100-2108`: decides whether
`(a,b,c,d)` is a positively oriented permutation of `(0,1,2,3)`.  The C
function returns a nonzero `int` exactly when this returns `true`. -/
def positive_permutation (a b c d : ℕ) : Bool :=
  if (a + 1) % 4 = b then
    c % 2 = 0
  else if (a + 2) % 4 = b then
    b * c + a * d > b * d + a * c
  else
    d % 2 = 0

/-- The number of inversions of a list of naturals (pairs appearing in
decreasing order); a permutation is even exactly when this is even. -/
def invCount : List ℕ → ℕ
  | [] => 0
  | x :: xs => (xs.filter (fun y => y < x)).length + invCount xs

/-- C10: on every permutation `(a,b,c,d)` of `(0,1,2,3)`,
`positive_permutation` returns a nonzero value exactly when the permutation is
even (has an even number of inversions). -/
theorem C10_positive_permutation_iff_even (a b c d : ℕ)
    (h : List.Perm [a, b, c, d] [0, 1, 2, 3]) :
    positive_permutation a b c d = true ↔ invCount [a, b, c, d] % 2 = 0 := by
  have ha : a ∈ ([0, 1, 2, 3] : List ℕ) := h.mem_iff.mp (by simp)
  have hb : b ∈ ([0, 1, 2, 3] : List ℕ) := h.mem_iff.mp (by simp)
  have hc : c ∈ ([0, 1, 2, 3] : List ℕ) := h.mem_iff.mp (by simp)
  have hd : d ∈ ([0, 1, 2, 3] : List ℕ) := h.mem_iff.mp (by simp)
  fin_cases ha <;> fin_cases hb <;> fin_cases hc <;> fin_cases hd <;>
    revert h <;> decide

/-- Witness for C10 at the concrete even permutation `(1,0,3,2)`. -/
theorem C10_witness :
    List.Perm [1, 0, 3, 2] [0, 1, 2, 3] ∧
      (positive_permutation 1 0 3 2 = true ↔ invCount [1, 0, 3, 2] % 2 = 0) :=
  ⟨by decide, C10_positive_permutation_iff_even 1 0 3 2 (by decide)⟩

/-! ## 2D exact predicates and the 2D mesh (claims C4, C5, C9)

The 2D builder `delaunay2d.h` includes `geometry.h` and `triangle.h`, which are
not part of the repository snapshot under `src/`; the predicates and the
triangle record are therefore modelled from the specification. -/

/-- An integer-grid point in 2D (52-bit unsigned integer coordinates). -/
structure P2 where
  x : ℕ
  y : ℕ
  deriving DecidableEq, Repr

/-- The 2×2 determinant of `[b-a; c-a]`. -/
def orient2Det (a b c : P2) : ℤ :=
  ((b.x : ℤ) - (a.x : ℤ)) * ((c.y : ℤ) - (a.y : ℤ)) -
    ((b.y : ℤ) - (a.y : ℤ)) * ((c.x : ℤ) - (a.x : ℤ))

/-- Modelled from the spec: `geometry2d_orient_exact` of the missing
`geometry.h`.  Per spec §4.1, `orient(a,b,c)` in 2D returns the sign of the 2×2
determinant of `[b-a; c-a]`, evaluated exactly. -/
def geometry2d_orient_exact (a b c : P2) : ℤ :=
  Int.sign (orient2Det a b c)

/-- The standard 2D lifting determinant: the 3×3 determinant with rows
`(aᵢ - d, |aᵢ - d|²)`. -/
def inCircleDet (a b c d : P2) : ℤ :=
  let s1x := (a.x : ℤ) - (d.x : ℤ)
  let s1y := (a.y : ℤ) - (d.y : ℤ)
  let s2x := (b.x : ℤ) - (d.x : ℤ)
  let s2y := (b.y : ℤ) - (d.y : ℤ)
  let s3x := (c.x : ℤ) - (d.x : ℤ)
  let s3y := (c.y : ℤ) - (d.y : ℤ)
  s1x * (s2y * (s3x * s3x + s3y * s3y) - (s2x * s2x + s2y * s2y) * s3y) -
    s1y * (s2x * (s3x * s3x + s3y * s3y) - (s2x * s2x + s2y * s2y) * s3x) +
    (s1x * s1x + s1y * s1y) * (s2x * s3y - s2y * s3x)

/-- Modelled from the spec: `geometry2d_in_sphere_exact` of the missing
`geometry.h`.  Per spec §4.1, `in_sphere(a,b,c,d)` in 2D returns the sign of
the standard lifting determinant; it is positive exactly when `d` lies strictly
inside the circumscribed circle of the counterclockwise triangle `(a,b,c)`. -/
def geometry2d_in_sphere_exact (a b c d : P2) : ℤ :=
  Int.sign (inCircleDet a b c d)

/-- Sanity check: `(1,0)` is strictly inside the circumcircle of the
counterclockwise triangle `(0,0), (2,0), (0,2)`. -/
example : geometry2d_in_sphere_exact ⟨0, 0⟩ ⟨2, 0⟩ ⟨0, 2⟩ ⟨1, 0⟩ = 1 := by decide

/-- Modelled from the spec: the `triangle.h` Triangle record (spec §3): a
simplex stores `d+1` vertex IDs, `d+1` neighbour IDs and `d+1`
index-in-neighbour backpointers.  Since the C code accesses the tuples at
dynamically computed slots, they are modelled as functions on `ℕ` (only slots
0, 1, 2 are ever used). -/
structure Triangle where
  vertices : ℕ → ℕ
  neighbours : ℕ → ℕ
  index_in_neighbour : ℕ → ℕ

/-- Modelled from the spec: `triangle_init` writes the vertex tuple (spec
§4.2: "Simplex `init` writes the vertex tuple"); neighbour data is written by
subsequent `swap_neighbour` calls. -/
def Triangle.init (tr : Triangle) (v0 v1 v2 : ℕ) : Triangle :=
  { tr with vertices := fun j => if j = 0 then v0 else if j = 1 then v1 else v2 }

/-- Modelled from the spec: `triangle_swap_neighbour(s, slot, new_ngb,
new_slot)` writes both the neighbour ID and the index-in-neighbour in one call
(spec §4.2). -/
def Triangle.swapNeighbour (tr : Triangle) (idx ngb idxInNgb : ℕ) : Triangle :=
  { tr with
    neighbours := fun j => if j = idx then ngb else tr.neighbours j
    index_in_neighbour := fun j => if j = idx then idxInNgb else tr.index_in_neighbour j }

/-- The parts of the 2D `struct delaunay` (`src/delaunay2d.h:44-152`) that the
incremental algorithms operate on.  Arrays are modelled as functions from the
index type; the search radii (C `double`s) are modelled as rationals. -/
structure Delaunay2D where
  integer_vertices : ℕ → P2
  triangles : ℕ → Triangle
  vertex_triangles : ℕ → ℕ
  vertex_triangle_index : ℕ → ℕ
  search_radii : ℕ → ℚ
  queue : List ℕ
  last_triangle : ℕ
  vertex_start : ℕ
  vertex_end : ℕ

/-- Write the triangle record at index `i` (C: `d->triangles[i] = tr`). -/
def Delaunay2D.setTriangle (d : Delaunay2D) (i : ℕ) (tr : Triangle) : Delaunay2D :=
  { d with triangles := fun j => if j = i then tr else d.triangles j }

/-- Result of `delaunay_test_point_inside_triangle`
(`src/delaunay2d.h:442-587`): return value 0 (`walk`), 1 (`inside`), 2
(`onEdge` with the `t_new` and `ngb_index` output parameters), or the
diagnostic abort of the `default` switch case (`impossible`). -/
inductive LocateResult where
  | walk (tNew : ℕ)
  | inside (tNew : ℕ)
  | onEdge (tNew ngbIndex : ℕ)
  | impossible (testsum : ℤ)
  deriving DecidableEq, Repr

/-- `delaunay_choose` from `src/delaunay2d.h:399-401`; the process-wide
`rand() % 2` coin is modelled as the explicit bit parameter. -/
def delaunay_choose (bit : Bool) (ngb0 ngb1 : ℕ) : ℕ :=
  if bit then ngb0 else ngb1

/-- The `testsum` switch of `delaunay_test_point_inside_triangle`
(`src/delaunay2d.h:520-586`), on the three exact orientation test results. -/
def locateSwitch (testi0 testi1 testi2 : ℤ) (tri : Triangle) (t : ℕ)
    (bit : Bool) : LocateResult :=
  let testsum := (testi0 + 1) * 16 + (testi1 + 1) * 4 + (testi2 + 1)
  if testsum = 1 ∨ testsum = 2 then
    .walk (delaunay_choose bit (tri.neighbours 0) (tri.neighbours 1))
  else if testsum = 4 ∨ testsum = 8 then
    .walk (delaunay_choose bit (tri.neighbours 0) (tri.neighbours 2))
  else if testsum = 5 ∨ testsum = 6 ∨ testsum = 9 ∨ testsum = 10 then
    .walk (tri.neighbours 0)
  else if testsum = 16 ∨ testsum = 32 then
    .walk (delaunay_choose bit (tri.neighbours 1) (tri.neighbours 2))
  else if testsum = 17 ∨ testsum = 18 ∨ testsum = 33 ∨ testsum = 34 then
    .walk (tri.neighbours 1)
  else if testsum = 20 ∨ testsum = 24 ∨ testsum = 36 ∨ testsum = 40 then
    .walk (tri.neighbours 2)
  else if testsum = 26 then .onEdge (tri.neighbours 0) 0
  else if testsum = 38 then .onEdge (tri.neighbours 1) 1
  else if testsum = 41 then .onEdge (tri.neighbours 2) 2
  else if testsum = 42 then .inside t
  else .impossible testsum

/-- `delaunay_test_point_inside_triangle` (`src/delaunay2d.h:442-587`): the
three exact orientation tests of the vertex against the triangle's directed
edges, combined through the `testsum` switch. -/
def delaunay_test_point_inside_triangle (d : Delaunay2D) (v t : ℕ)
    (bit : Bool) : LocateResult :=
  let tri := d.triangles t
  let pa := d.integer_vertices v
  let pb := d.integer_vertices (tri.vertices 0)
  let pc := d.integer_vertices (tri.vertices 1)
  let pd := d.integer_vertices (tri.vertices 2)
  locateSwitch (geometry2d_orient_exact pc pd pa) (geometry2d_orient_exact pd pb pa)
    (geometry2d_orient_exact pb pc pa) tri t bit

/-- The three edge tests of a triangle sum to the triangle's own orientation
determinant. -/
lemma orient2Det_sum (p0 p1 p2 pa : P2) :
    orient2Det p1 p2 pa + orient2Det p2 p0 pa + orient2Det p0 p1 pa =
      orient2Det p0 p1 p2 := by
  simp only [orient2Det]
  ring

lemma int_sign_trichotomy (a : ℤ) :
    Int.sign a = 0 ∨ Int.sign a = -1 ∨ Int.sign a = 1 := by
  rcases lt_trichotomy a 0 with h | h | h
  · exact Or.inr (Or.inl (Int.sign_eq_neg_one_iff_neg.mpr h))
  · exact Or.inl (Int.sign_eq_zero_iff_zero.mpr h)
  · exact Or.inr (Or.inr (Int.sign_eq_one_iff_pos.mpr h))

lemma int_sign_neg_iff (a : ℤ) : Int.sign a < 0 ↔ a < 0 := by
  constructor
  · intro h
    rcases lt_trichotomy a 0 with h' | h' | h'
    · exact h'
    · subst h'
      simp at h
    · rw [Int.sign_eq_one_iff_pos.mpr h'] at h
      omega
  · intro h
    rw [Int.sign_eq_neg_one_iff_neg.mpr h]
    omega

/-- Exhaustive analysis of the `testsum` switch over all sign-value triples,
under the side condition (guaranteed by a counterclockwise triangle) that not
all three tests are nonpositive. -/
lemma locateSwitch_spec (s0 s1 s2 : ℤ) (tri : Triangle) (t : ℕ) (bit : Bool)
    (h0 : s0 = 0 ∨ s0 = -1 ∨ s0 = 1) (h1 : s1 = 0 ∨ s1 = -1 ∨ s1 = 1)
    (h2 : s2 = 0 ∨ s2 = -1 ∨ s2 = 1) (hpos : 0 < s0 ∨ 0 < s1 ∨ 0 < s2) :
    (locateSwitch s0 s1 s2 tri t bit = .inside t ↔ 0 < s0 ∧ 0 < s1 ∧ 0 < s2) ∧
    (locateSwitch s0 s1 s2 tri t bit = .onEdge (tri.neighbours 0) 0 ↔
      s0 = 0 ∧ 0 < s1 ∧ 0 < s2) ∧
    (locateSwitch s0 s1 s2 tri t bit = .onEdge (tri.neighbours 1) 1 ↔
      s1 = 0 ∧ 0 < s0 ∧ 0 < s2) ∧
    (locateSwitch s0 s1 s2 tri t bit = .onEdge (tri.neighbours 2) 2 ↔
      s2 = 0 ∧ 0 < s0 ∧ 0 < s1) ∧
    ((∃ tn, locateSwitch s0 s1 s2 tri t bit = .walk tn) ↔
      s0 < 0 ∨ s1 < 0 ∨ s2 < 0) ∧
    (s0 < 0 → 0 ≤ s1 → 0 ≤ s2 →
      locateSwitch s0 s1 s2 tri t bit = .walk (tri.neighbours 0)) ∧
    (s1 < 0 → 0 ≤ s0 → 0 ≤ s2 →
      locateSwitch s0 s1 s2 tri t bit = .walk (tri.neighbours 1)) ∧
    (s2 < 0 → 0 ≤ s0 → 0 ≤ s1 →
      locateSwitch s0 s1 s2 tri t bit = .walk (tri.neighbours 2)) ∧
    (s0 < 0 → s1 < 0 → locateSwitch s0 s1 s2 tri t bit =
      .walk (delaunay_choose bit (tri.neighbours 0) (tri.neighbours 1))) ∧
    (s0 < 0 → s2 < 0 → locateSwitch s0 s1 s2 tri t bit =
      .walk (delaunay_choose bit (tri.neighbours 0) (tri.neighbours 2))) ∧
    (s1 < 0 → s2 < 0 → locateSwitch s0 s1 s2 tri t bit =
      .walk (delaunay_choose bit (tri.neighbours 1) (tri.neighbours 2))) ∧
    ((∃ s, locateSwitch s0 s1 s2 tri t bit = .impossible s) ↔
      0 ≤ s0 ∧ 0 ≤ s1 ∧ 0 ≤ s2 ∧
        ((s0 = 0 ∧ s1 = 0) ∨ (s0 = 0 ∧ s2 = 0) ∨ (s1 = 0 ∧ s2 = 0))) := by
  rcases h0 with rfl | rfl | rfl <;> rcases h1 with rfl | rfl | rfl <;>
    rcases h2 with rfl | rfl | rfl <;>
    simp_all [locateSwitch]

/-- The full case behaviour claimed for `delaunay_test_point_inside_triangle`
on vertex `v`, triangle `t` and coin flip `bit`: writing `s0, s1, s2` for the
three exact orientation tests of `v` against the triangle's directed edges (in
the order of `src/delaunay2d.h:503-508`) and `r` for the function's result,
the twelve clauses below describe each return value exactly. -/
def LocatePostcondition (d : Delaunay2D) (v t : ℕ) (bit : Bool) : Prop :=
  let tri := d.triangles t
  let pa := d.integer_vertices v
  let pb := d.integer_vertices (tri.vertices 0)
  let pc := d.integer_vertices (tri.vertices 1)
  let pd := d.integer_vertices (tri.vertices 2)
  let s0 := geometry2d_orient_exact pc pd pa
  let s1 := geometry2d_orient_exact pd pb pa
  let s2 := geometry2d_orient_exact pb pc pa
  let r := delaunay_test_point_inside_triangle d v t bit
  (r = .inside t ↔ 0 < s0 ∧ 0 < s1 ∧ 0 < s2) ∧
  (r = .onEdge (tri.neighbours 0) 0 ↔ s0 = 0 ∧ 0 < s1 ∧ 0 < s2) ∧
  (r = .onEdge (tri.neighbours 1) 1 ↔ s1 = 0 ∧ 0 < s0 ∧ 0 < s2) ∧
  (r = .onEdge (tri.neighbours 2) 2 ↔ s2 = 0 ∧ 0 < s0 ∧ 0 < s1) ∧
  ((∃ tn, r = .walk tn) ↔ s0 < 0 ∨ s1 < 0 ∨ s2 < 0) ∧
  (s0 < 0 → 0 ≤ s1 → 0 ≤ s2 → r = .walk (tri.neighbours 0)) ∧
  (s1 < 0 → 0 ≤ s0 → 0 ≤ s2 → r = .walk (tri.neighbours 1)) ∧
  (s2 < 0 → 0 ≤ s0 → 0 ≤ s1 → r = .walk (tri.neighbours 2)) ∧
  (s0 < 0 → s1 < 0 →
    r = .walk (delaunay_choose bit (tri.neighbours 0) (tri.neighbours 1))) ∧
  (s0 < 0 → s2 < 0 →
    r = .walk (delaunay_choose bit (tri.neighbours 0) (tri.neighbours 2))) ∧
  (s1 < 0 → s2 < 0 →
    r = .walk (delaunay_choose bit (tri.neighbours 1) (tri.neighbours 2))) ∧
  ((∃ s, r = .impossible s) ↔
    0 ≤ s0 ∧ 0 ≤ s1 ∧ 0 ≤ s2 ∧
      ((s0 = 0 ∧ s1 = 0) ∨ (s0 = 0 ∧ s2 = 0) ∨ (s1 = 0 ∧ s2 = 0)))

/-- C4: for any vertex `v` and counterclockwise (non-dummy, invariant I1)
triangle `t`, `delaunay_test_point_inside_triangle` returns 1 (`inside`, with
`t_new = t`) exactly when all three exact orient tests are strictly positive;
returns 2 (`onEdge`, with `t_new` the neighbour across the zero edge and
`ngb_index` that edge's slot) exactly when one test is zero and the other two
positive; returns 0 (`walk`, towards a neighbour across a strictly negative
edge, chosen by the uniform random bit between the two candidates when exactly
two tests are negative) exactly when at least one test is negative; and aborts
with a diagnostic (`impossible`) for every other sign pattern, i.e. when no
test is negative and at least two are zero (`v` coinciding with a triangle
vertex; collinear triangle vertices contradict the orientation hypothesis). -/
theorem C4_test_point_inside_triangle_correct (d : Delaunay2D) (v t : ℕ)
    (bit : Bool)
    (hccw : 0 < orient2Det (d.integer_vertices ((d.triangles t).vertices 0))
      (d.integer_vertices ((d.triangles t).vertices 1))
      (d.integer_vertices ((d.triangles t).vertices 2))) :
    LocatePostcondition d v t bit := by
  have hsum := orient2Det_sum
    (d.integer_vertices ((d.triangles t).vertices 0))
    (d.integer_vertices ((d.triangles t).vertices 1))
    (d.integer_vertices ((d.triangles t).vertices 2))
    (d.integer_vertices v)
  have hpos : 0 < geometry2d_orient_exact
      (d.integer_vertices ((d.triangles t).vertices 1))
      (d.integer_vertices ((d.triangles t).vertices 2))
      (d.integer_vertices v) ∨
      0 < geometry2d_orient_exact
        (d.integer_vertices ((d.triangles t).vertices 2))
        (d.integer_vertices ((d.triangles t).vertices 0))
        (d.integer_vertices v) ∨
      0 < geometry2d_orient_exact
        (d.integer_vertices ((d.triangles t).vertices 0))
        (d.integer_vertices ((d.triangles t).vertices 1))
        (d.integer_vertices v) := by
    by_contra hnp
    push_neg at hnp
    obtain ⟨hn0, hn1, hn2⟩ := hnp
    rw [geometry2d_orient_exact, not_lt.symm] at hn0 hn1 hn2
    rw [not_lt, ← not_lt] at hn0 hn1 hn2
    have d0 := (not_iff_not.mpr (int_sign_pos_iff _)).mp hn0
    have d1 := (not_iff_not.mpr (int_sign_pos_iff _)).mp hn1
    have d2 := (not_iff_not.mpr (int_sign_pos_iff _)).mp hn2
    rw [not_lt] at d0 d1 d2
    linarith
  exact locateSwitch_spec _ _ _ (d.triangles t) t bit
    (int_sign_trichotomy _) (int_sign_trichotomy _) (int_sign_trichotomy _) hpos

/-- The concrete triangle used in the C4 witness: vertices 1, 2, 3, neighbour
`j` across slot `j`. -/
def locateDemoTriangle : Triangle :=
  { vertices := fun j => if j = 0 then 1 else if j = 1 then 2 else 3
    neighbours := fun j => j
    index_in_neighbour := fun j => j }

/-- The concrete mesh state used in the C4 witness: vertex 0 at `(1,1)` lies
strictly inside the counterclockwise triangle `(0,0), (4,0), (0,4)`. -/
def locateDemoState : Delaunay2D :=
  { integer_vertices := fun i =>
      if i = 1 then ⟨0, 0⟩ else if i = 2 then ⟨4, 0⟩ else if i = 3 then ⟨0, 4⟩
      else ⟨1, 1⟩
    triangles := fun _ => locateDemoTriangle
    vertex_triangles := fun _ => 3
    vertex_triangle_index := fun _ => 0
    search_radii := fun _ => 0
    queue := []
    last_triangle := 3
    vertex_start := 0
    vertex_end := 1 }

/-- Witness for C4 at a concrete counterclockwise triangle. -/
theorem C4_witness :
    (0 < orient2Det (locateDemoState.integer_vertices ((locateDemoState.triangles 3).vertices 0))
      (locateDemoState.integer_vertices ((locateDemoState.triangles 3).vertices 1))
      (locateDemoState.integer_vertices ((locateDemoState.triangles 3).vertices 2))) ∧
      LocatePostcondition locateDemoState 0 3 true :=
  ⟨by decide, C4_test_point_inside_triangle_correct locateDemoState 0 3 true (by decide)⟩

/-! ## The 2D restore loop body (claim C5) -/

/-- Sequential array write (C: `f[i] = v`), last write wins. -/
def updFun (f : ℕ → ℕ) (i v : ℕ) : ℕ → ℕ :=
  fun j => if j = i then v else f j

/-- `delaunay_check_triangle` (`src/delaunay2d.h:657-785`): the body of the 2D
restore loop for the popped triangle `t`.  By the construction convention the
newly inserted vertex is the triangle's last vertex (slot 2), so the neighbour
to test is `neighbours[2]`.  State updates mirror the source order exactly. -/
def delaunay_check_triangle (d : Delaunay2D) (t : ℕ) : Delaunay2D :=
  let t2 := (d.triangles t).neighbours 2
  if t2 < 3 then d
  else
    let vt1_0 := (d.triangles t).vertices 0
    let vt1_1 := (d.triangles t).vertices 1
    let vt1_2 := (d.triangles t).vertices 2
    let i0 := (d.triangles t).index_in_neighbour 2
    let vt2_0 := (d.triangles t2).vertices i0
    let testi := geometry2d_in_sphere_exact (d.integer_vertices vt1_0)
      (d.integer_vertices vt1_1) (d.integer_vertices vt1_2)
      (d.integer_vertices vt2_0)
    if 0 < testi then
      let i1 := (i0 + 1) % 3
      let i2 := (i0 + 2) % 3
      let ngb0 := (d.triangles t).neighbours 1
      let ngbi0 := (d.triangles t).index_in_neighbour 1
      let ngb1 := (d.triangles t).neighbours 0
      let ngbi1 := (d.triangles t).index_in_neighbour 0
      let ngb2 := (d.triangles t2).neighbours i2
      let ngbi2 := (d.triangles t2).index_in_neighbour i2
      let ngb3 := (d.triangles t2).neighbours i1
      let ngbi3 := (d.triangles t2).index_in_neighbour i1
      let d1 := d.setTriangle t ((d.triangles t).init vt1_0 vt2_0 vt1_2)
      let d2 := d1.setTriangle t ((d1.triangles t).swapNeighbour 0 t2 1)
      let d3 := d2.setTriangle t ((d2.triangles t).swapNeighbour 1 ngb0 ngbi0)
      let d4 := d3.setTriangle ngb0 ((d3.triangles ngb0).swapNeighbour ngbi0 t 1)
      let d5 := d4.setTriangle t ((d4.triangles t).swapNeighbour 2 ngb3 ngbi3)
      let d6 := d5.setTriangle ngb3 ((d5.triangles ngb3).swapNeighbour ngbi3 t 2)
      let d7 := d6.setTriangle t2 ((d6.triangles t2).init vt2_0 vt1_1 vt1_2)
      let d8 := d7.setTriangle t2 ((d7.triangles t2).swapNeighbour 0 ngb1 ngbi1)
      let d9 := d8.setTriangle ngb1 ((d8.triangles ngb1).swapNeighbour ngbi1 t2 0)
      let d10 := d9.setTriangle t2 ((d9.triangles t2).swapNeighbour 1 t 0)
      let d11 := d10.setTriangle t2 ((d10.triangles t2).swapNeighbour 2 ngb2 ngbi2)
      let d12 := d11.setTriangle ngb2 ((d11.triangles ngb2).swapNeighbour ngbi2 t2 2)
      { d12 with
        vertex_triangles :=
          updFun (updFun (updFun (updFun d12.vertex_triangles vt1_0 t) vt1_1 t2)
            vt1_2 t2) vt2_0 t2
        vertex_triangle_index :=
          updFun (updFun (updFun (updFun d12.vertex_triangle_index vt1_0 0) vt1_1 1)
            vt1_2 2) vt2_0 0
        queue := (d12.queue ++ [t]) ++ [t2]
        last_triangle := t2 }
    else d

@[simp]
lemma setTriangle_triangles_self (d : Delaunay2D) (i : ℕ) (tr : Triangle) :
    (d.setTriangle i tr).triangles i = tr := by
  simp [Delaunay2D.setTriangle]

lemma setTriangle_triangles_ne (d : Delaunay2D) (i : ℕ) (tr : Triangle) (j : ℕ)
    (h : j ≠ i) : (d.setTriangle i tr).triangles j = d.triangles j := by
  simp [Delaunay2D.setTriangle, h]

@[simp]
lemma swapNeighbour_vertices (tr : Triangle) (idx ngb k : ℕ) :
    (tr.swapNeighbour idx ngb k).vertices = tr.vertices := rfl

@[simp]
lemma init_vertices (tr : Triangle) (v0 v1 v2 : ℕ) :
    (tr.init v0 v1 v2).vertices =
      fun j => if j = 0 then v0 else if j = 1 then v1 else v2 := rfl

/-- Writing a neighbour-swapped triangle anywhere never changes any vertex
tuple. -/
@[simp]
lemma setTriangle_swap_vertices (d : Delaunay2D) (i idx ngb k j : ℕ) :
    ((d.setTriangle i ((d.triangles i).swapNeighbour idx ngb k)).triangles j).vertices =
      (d.triangles j).vertices := by
  by_cases h : j = i
  · subst h
    simp
  · rw [setTriangle_triangles_ne _ _ _ _ h]

@[simp]
lemma setTriangle_queue (d : Delaunay2D) (i : ℕ) (tr : Triangle) :
    (d.setTriangle i tr).queue = d.queue := rfl

@[simp]
lemma setTriangle_integer_vertices (d : Delaunay2D) (i : ℕ) (tr : Triangle) :
    (d.setTriangle i tr).integer_vertices = d.integer_vertices := rfl

/-- What claim C5 asserts of one iteration of the 2D restore loop on the
popped triangle `t`.  Writing `n` for the neighbour opposite the newly
inserted vertex (slot 2), `w` for the vertex of `n` opposite `t`, and `testi`
for the exact in-sphere test of `w` against the vertices of `t`:
dummy neighbours (`n < 3`) and non-positive tests leave the state untouched;
a strictly positive test replaces `(t, n)` by the two triangles
`(vt1_0, w, v)` and `(w, vt1_1, v)` sharing the edge `(w, v)` (`v = vt1_2` the
newly inserted vertex), appends both to the check queue, and records `n` as
the last touched triangle. -/
def CheckTrianglePost (d : Delaunay2D) (t : ℕ) : Prop :=
  let t2 := (d.triangles t).neighbours 2
  let vt1_0 := (d.triangles t).vertices 0
  let vt1_1 := (d.triangles t).vertices 1
  let vt1_2 := (d.triangles t).vertices 2
  let i0 := (d.triangles t).index_in_neighbour 2
  let vt2_0 := (d.triangles t2).vertices i0
  let testi := geometry2d_in_sphere_exact (d.integer_vertices vt1_0)
    (d.integer_vertices vt1_1) (d.integer_vertices vt1_2)
    (d.integer_vertices vt2_0)
  let r := delaunay_check_triangle d t
  (t2 < 3 → r = d) ∧
  (¬ t2 < 3 → testi ≤ 0 → r = d) ∧
  (¬ t2 < 3 → 0 < testi → t ≠ t2 →
    (r.triangles t).vertices 0 = vt1_0 ∧
    (r.triangles t).vertices 1 = vt2_0 ∧
    (r.triangles t).vertices 2 = vt1_2 ∧
    (r.triangles t2).vertices 0 = vt2_0 ∧
    (r.triangles t2).vertices 1 = vt1_1 ∧
    (r.triangles t2).vertices 2 = vt1_2 ∧
    r.queue = d.queue ++ [t, t2] ∧
    r.last_triangle = t2)

/-- C5: in the 2D restore loop, a popped triangle whose neighbour across the
edge opposite the newly inserted vertex is a dummy (index < 3) causes no
in-sphere test and no modification; otherwise the exact in-sphere test decides:
when it does not report strict containment the state is unchanged, and exactly
when it does, the pair `(t, n)` is replaced by two new triangles sharing the
edge between the newly inserted vertex and the vertex of `n` opposite `t`, and
both new triangles are enqueued for further checking. -/
theorem C5_check_triangle_correct (d : Delaunay2D) (t : ℕ) :
    CheckTrianglePost d t := by
  unfold CheckTrianglePost
  refine ⟨?_, ?_, ?_⟩
  · intro h
    unfold delaunay_check_triangle
    rw [if_pos h]
  · intro h hle
    unfold delaunay_check_triangle
    rw [if_neg h, if_neg (by omega)]
  · intro h hgt hne
    unfold delaunay_check_triangle
    rw [if_neg h, if_pos hgt]
    refine ⟨?_, ?_, ?_, ?_, ?_, ?_, ?_, ?_⟩ <;>
      simp [setTriangle_triangles_ne _ _ _ _ hne,
        setTriangle_triangles_ne _ _ _ _ (Ne.symm hne), Triangle.init]

/-- The concrete 2D state used in the C5 witness: every triangle record points
at the dummy neighbour 0 across edge 2, so `check_triangle` leaves the state
unchanged. -/
def checkDemoState : Delaunay2D :=
  { integer_vertices := fun _ => ⟨0, 0⟩
    triangles := fun _ =>
      { vertices := fun _ => 0, neighbours := fun _ => 0
        index_in_neighbour := fun _ => 0 }
    vertex_triangles := fun _ => 0
    vertex_triangle_index := fun _ => 0
    search_radii := fun _ => 0
    queue := []
    last_triangle := 0
    vertex_start := 3
    vertex_end := 3 }

/-- Witness for C5: on `checkDemoState`, the neighbour across edge 2 is one of
the three dummy triangles, and the postcondition's first clause then says the
state is returned unchanged. -/
theorem C5_witness :
    (checkDemoState.triangles 0).neighbours 2 < 3 ∧
      delaunay_check_triangle checkDemoState 0 = checkDemoState :=
  ⟨by decide, (C5_check_triangle_correct checkDemoState 0).1 (by decide)⟩

/-! ## Search-radius bookkeeping (claim C9)

`delaunay_update_search_radii` (`src/delaunay2d.h:1094-1118`) recomputes, for
every local vertex whose stored radius exceeds the threshold, twice the largest
circumcircle radius over the triangles incident to that vertex, enumerating
them by the vertex's back-link plus rotation around the vertex.  The
per-triangle circumcircle radius `delaunay_get_radius`
(`src/delaunay2d.h:1050-1075`) is a floating-point computation (division and
`sqrt` on `double`s); it is abstracted here by the oracle `rad`, and the stored
radii are modelled as rationals.  The unbounded rotation loop is modelled with
fuel; `none` means the loop did not return to the starting triangle within the
given fuel. -/

/-- The triangles visited by the rotation loop of
`delaunay_update_search_radii` (`src/delaunay2d.h:1105-1111`), in order:
starting from `t1` with index `vi1`, step over `(vi1 + 2) % 3` until the
back-link triangle `t0` reappears. -/
def rotateTriangleList (tris : ℕ → Triangle) (t0 : ℕ) :
    ℕ → ℕ → ℕ → Option (List ℕ)
  | 0, _, _ => none
  | fuel + 1, t1, vi1 =>
    if t1 = t0 then some []
    else
      let vi1p2 := (vi1 + 2) % 3
      let vi1' := (tris t1).index_in_neighbour vi1p2
      let t1' := (tris t1).neighbours vi1p2
      match rotateTriangleList tris t0 fuel t1' vi1' with
      | none => none
      | some l => some (t1 :: l)

/-- The new search radius of vertex `i`: `2 · get_radius(t0)` fmax-ed over
`2 · get_radius(t)` for every triangle `t` the rotation visits
(`src/delaunay2d.h:1099-1111`). -/
def updateRadiusVertex (rad : ℕ → ℚ) (d : Delaunay2D) (fuel i : ℕ) : Option ℚ :=
  let t0 := d.vertex_triangles i
  let vi0 := d.vertex_triangle_index i
  let vi0p1 := (vi0 + 1) % 3
  let t1 := (d.triangles t0).neighbours vi0p1
  let vi1 := (d.triangles t0).index_in_neighbour vi0p1
  (rotateTriangleList d.triangles t0 fuel t1 vi1).map
    (fun l => l.foldl (fun acc tj => max acc (2 * rad tj)) (2 * rad t0))

/-- Rational-valued array write. -/
def updFunQ (f : ℕ → ℚ) (i : ℕ) (v : ℚ) : ℕ → ℚ :=
  fun j => if j = i then v else f j

/-- The vertex loop of `delaunay_update_search_radii`
(`src/delaunay2d.h:1096-1117`) over the list of local vertex indices, carrying
the radii array and the counter. -/
def updateRadiiLoop (rad : ℕ → ℚ) (d : Delaunay2D) (r : ℚ) (fuel : ℕ) :
    List ℕ → (ℕ → ℚ) → ℕ → Option ((ℕ → ℚ) × ℕ)
  | [], radii, count => some (radii, count)
  | i :: rest, radii, count =>
    if r < radii i then
      match updateRadiusVertex rad d fuel i with
      | none => none
      | some newR =>
        updateRadiiLoop rad d r fuel rest (updFunQ radii i newR)
          (if r < newR then count + 1 else count)
    else
      updateRadiiLoop rad d r fuel rest radii count

/-- `delaunay_update_search_radii` (`src/delaunay2d.h:1094-1118`): update the
radii of all local vertices (indices in `[vertex_start, vertex_end)`) and
return the new state together with the number of vertices whose radius still
exceeds `r`. -/
def delaunay_update_search_radii (rad : ℕ → ℚ) (d : Delaunay2D) (r : ℚ)
    (fuel : ℕ) : Option (Delaunay2D × ℕ) :=
  (updateRadiiLoop rad d r fuel
      (List.range' d.vertex_start (d.vertex_end - d.vertex_start))
      d.search_radii 0).map
    (fun p => ({ d with search_radii := p.1 }, p.2))

lemma updateRadiiLoop_spec (rad : ℕ → ℚ) (d : Delaunay2D) (r : ℚ) (fuel : ℕ)
    (l : List ℕ) (radii : ℕ → ℚ) (count : ℕ) (radii' : ℕ → ℚ) (count' : ℕ)
    (hnd : l.Nodup)
    (hres : updateRadiiLoop rad d r fuel l radii count = some (radii', count')) :
    (∀ i, i ∉ l → radii' i = radii i) ∧
    (∀ i ∈ l, radii i ≤ r → radii' i = radii i) ∧
    (∀ i ∈ l, r < radii i →
      ∃ newR, updateRadiusVertex rad d fuel i = some newR ∧ radii' i = newR) ∧
    count' = count + l.countP (fun i => decide (r < radii' i)) := by
  induction l generalizing radii count with
  | nil =>
    simp only [updateRadiiLoop, Option.some.injEq, Prod.mk.injEq] at hres
    obtain ⟨h1, h2⟩ := hres
    subst h1
    subst h2
    simp
  | cons i rest ih =>
    obtain ⟨hi, hndr⟩ := List.nodup_cons.mp hnd
    simp only [updateRadiiLoop] at hres
    by_cases hgt : r < radii i
    · rw [if_pos hgt] at hres
      cases hvert : updateRadiusVertex rad d fuel i with
      | none =>
        rw [hvert] at hres
        simp at hres
      | some newR =>
        rw [hvert] at hres
        simp only at hres
        obtain ⟨hout, hskip, hupd, hcount⟩ := ih _ _ hndr hres
        have hradii_i : radii' i = newR := by
          rw [hout i hi]
          simp [updFunQ]
        refine ⟨?_, ?_, ?_, ?_⟩
        · intro j hj
          rw [List.mem_cons] at hj
          push_neg at hj
          rw [hout j hj.2]
          simp [updFunQ, hj.1]
        · intro j hj hle
          rcases List.mem_cons.mp hj with rfl | hj'
          · exact absurd hgt (not_lt.mpr hle)
          · have hne : j ≠ i := fun h => hi (h ▸ hj')
            have hval : updFunQ radii i newR j = radii j := by
              simp [updFunQ, hne]
            rw [hskip j hj' (by rw [hval]; exact hle), hval]
        · intro j hj hgt'
          rcases List.mem_cons.mp hj with rfl | hj'
          · exact ⟨newR, hvert, hradii_i⟩
          · have hne : j ≠ i := fun h => hi (h ▸ hj')
            obtain ⟨nR, h1, h2⟩ := hupd j hj' (by simpa [updFunQ, hne] using hgt')
            exact ⟨nR, h1, h2⟩
        · rw [hcount, List.countP_cons]
          simp only [hradii_i]
          by_cases hnew : r < newR
          · rw [if_pos hnew]
            simp [hnew]
            omega
          · rw [if_neg hnew]
            simp [hnew]
    · rw [if_neg hgt] at hres
      obtain ⟨hout, hskip, hupd, hcount⟩ := ih _ _ hndr hres
      have hradii_i : radii' i = radii i := hout i hi
      refine ⟨?_, ?_, ?_, ?_⟩
      · intro j hj
        rw [List.mem_cons] at hj
        push_neg at hj
        exact hout j hj.2
      · intro j hj hle
        rcases List.mem_cons.mp hj with rfl | hj'
        · exact hradii_i
        · exact hskip j hj' hle
      · intro j hj hgt'
        rcases List.mem_cons.mp hj with rfl | hj'
        · exact absurd hgt' hgt
        · exact hupd j hj' hgt'
      · rw [hcount, List.countP_cons]
        have : ¬ r < radii' i := by
          rw [hradii_i]
          exact hgt
        simp [this]

lemma foldl_two_mul_max (rad : ℕ → ℚ) (l : List ℕ) (x : ℚ) :
    l.foldl (fun acc tj => max acc (2 * rad tj)) (2 * x) =
      2 * l.foldl (fun acc tj => max acc (rad tj)) x := by
  induction l generalizing x with
  | nil => simp
  | cons a l ih =>
    simp only [List.foldl_cons]
    rw [← mul_max_of_nonneg _ _ (by norm_num : (0 : ℚ) ≤ 2), ih]

/-- C9: given any threshold `r`, `delaunay_update_search_radii` (whose
per-triangle circumcircle radius computation is abstracted by the oracle
`rad`) leaves the stored radius of every local vertex with current radius at
most `r` unchanged; for every local vertex with current radius above `r` it
sets the radius to twice the largest circumcircle radius over the triangles
incident to that vertex, enumerated via the vertex's back-link and rotation
around the vertex; it does not touch non-local vertices; and it returns the
number of local vertices whose recomputed radius still exceeds `r`. -/
theorem C9_update_search_radii_correct (rad : ℕ → ℚ) (d : Delaunay2D) (r : ℚ)
    (fuel : ℕ) (d' : Delaunay2D) (count : ℕ)
    (hres : delaunay_update_search_radii rad d r fuel = some (d', count)) :
    (∀ i, d.vertex_start ≤ i → i < d.vertex_end → d.search_radii i ≤ r →
      d'.search_radii i = d.search_radii i) ∧
    (∀ i, d.vertex_start ≤ i → i < d.vertex_end → r < d.search_radii i →
      ∃ l, rotateTriangleList d.triangles (d.vertex_triangles i) fuel
          ((d.triangles (d.vertex_triangles i)).neighbours
            ((d.vertex_triangle_index i + 1) % 3))
          ((d.triangles (d.vertex_triangles i)).index_in_neighbour
            ((d.vertex_triangle_index i + 1) % 3)) = some l ∧
        d'.search_radii i =
          2 * l.foldl (fun acc tj => max acc (rad tj)) (rad (d.vertex_triangles i))) ∧
    (∀ i, i < d.vertex_start ∨ d.vertex_end ≤ i →
      d'.search_radii i = d.search_radii i) ∧
    count = (List.range' d.vertex_start (d.vertex_end - d.vertex_start)).countP
      (fun i => decide (r < d'.search_radii i)) := by
  unfold delaunay_update_search_radii at hres
  cases hloop : updateRadiiLoop rad d r fuel
      (List.range' d.vertex_start (d.vertex_end - d.vertex_start))
      d.search_radii 0 with
  | none =>
    rw [hloop] at hres
    simp at hres
  | some p =>
    obtain ⟨radii', count'⟩ := p
    rw [hloop] at hres
    simp only [Option.map_some', Option.some.injEq, Prod.mk.injEq] at hres
    obtain ⟨hd', hcount⟩ := hres
    subst hcount
    obtain ⟨hout, hskip, hupd, hcnt⟩ :=
      updateRadiiLoop_spec rad d r fuel _ _ _ _ _ (by simp [List.nodup_range']) hloop
    have hsr : d'.search_radii = radii' := by
      rw [← hd']
    refine ⟨?_, ?_, ?_, ?_⟩
    · intro i h1 h2 hle
      rw [hsr]
      exact hskip i (List.mem_range'_1.mpr ⟨h1, by omega⟩) hle
    · intro i h1 h2 hgt
      obtain ⟨newR, hvert, hval⟩ :=
        hupd i (List.mem_range'_1.mpr ⟨h1, by omega⟩) hgt
      simp only [updateRadiusVertex] at hvert
      cases hrot : rotateTriangleList d.triangles (d.vertex_triangles i) fuel
          ((d.triangles (d.vertex_triangles i)).neighbours
            ((d.vertex_triangle_index i + 1) % 3))
          ((d.triangles (d.vertex_triangles i)).index_in_neighbour
            ((d.vertex_triangle_index i + 1) % 3)) with
      | none =>
        rw [hrot] at hvert
        simp at hvert
      | some l =>
        rw [hrot] at hvert
        simp only [Option.map_some', Option.some.injEq] at hvert
        refine ⟨l, rfl, ?_⟩
        rw [hsr, hval, ← hvert, foldl_two_mul_max]
    · intro i hrange
      rw [hsr]
      refine hout i (fun hmem => ?_)
      rw [List.mem_range'_1] at hmem
      omega
    · rw [hcnt, hsr]
      simp

/-- The concrete state used for the C9 witness: one local vertex (index 0)
whose stored radius does not exceed the threshold. -/
def radiiDemoState : Delaunay2D :=
  { integer_vertices := fun _ => ⟨0, 0⟩
    triangles := fun _ =>
      { vertices := fun _ => 0, neighbours := fun _ => 3, index_in_neighbour := fun _ => 0 }
    vertex_triangles := fun _ => 3
    vertex_triangle_index := fun _ => 0
    search_radii := fun _ => 1
    queue := []
    last_triangle := 3
    vertex_start := 0
    vertex_end := 1 }

/-- Witness for C9: on `radiiDemoState` with threshold `1` the update
succeeds (no vertex exceeds the threshold, so the state is returned unchanged
with count `0`), and the conclusions of the theorem hold there. -/
theorem C9_witness :
    delaunay_update_search_radii (fun _ => 2) radiiDemoState 1 5 =
        some (radiiDemoState, 0) ∧
      ((∀ i, radiiDemoState.vertex_start ≤ i → i < radiiDemoState.vertex_end →
          radiiDemoState.search_radii i ≤ 1 →
          radiiDemoState.search_radii i = radiiDemoState.search_radii i) ∧
        (∀ i, radiiDemoState.vertex_start ≤ i → i < radiiDemoState.vertex_end →
          1 < radiiDemoState.search_radii i →
          ∃ l, rotateTriangleList radiiDemoState.triangles
              (radiiDemoState.vertex_triangles i) 5
              ((radiiDemoState.triangles (radiiDemoState.vertex_triangles i)).neighbours
                ((radiiDemoState.vertex_triangle_index i + 1) % 3))
              ((radiiDemoState.triangles
                (radiiDemoState.vertex_triangles i)).index_in_neighbour
                ((radiiDemoState.vertex_triangle_index i + 1) % 3)) = some l ∧
            radiiDemoState.search_radii i =
              2 * l.foldl (fun acc tj => max acc ((fun _ => (2 : ℚ)) tj))
                ((fun _ => (2 : ℚ)) (radiiDemoState.vertex_triangles i))) ∧
        (∀ i, i < radiiDemoState.vertex_start ∨ radiiDemoState.vertex_end ≤ i →
          radiiDemoState.search_radii i = radiiDemoState.search_radii i) ∧
        (0 = (List.range' radiiDemoState.vertex_start
            (radiiDemoState.vertex_end - radiiDemoState.vertex_start)).countP
          (fun i => decide ((1 : ℚ) < radiiDemoState.search_radii i)))) :=
  ⟨rfl, C9_update_search_radii_correct (fun _ => 2) radiiDemoState 1 5
    radiiDemoState 0 rfl⟩

/-! ## Voronoi face emission (claim C8) -/

/-- The two per-sid Voronoi pair lists (`struct voronoi`,
`src/voronoi3d.h:122-141`): `pairs[0]` holds the faces interior to the local
cell, `pairs[1]` the faces crossing to a neighbouring cell.  Each pair is
recorded by its two generator indices (`left`, `right`); the floating-point
face geometry (area, midpoint) is not modelled. -/
structure Voronoi where
  pairs0 : List (ℕ × ℕ)
  pairs1 : List (ℕ × ℕ)
  deriving DecidableEq, Repr

/-- `voronoi_new_face` (`src/voronoi3d.h:547-563`): append a pair with the
given generators to the pair list selected by `sid`. -/
def voronoi_new_face (v : Voronoi) (sid : ℕ) (leftIdx rightIdx : ℕ) : Voronoi :=
  if sid = 0 then { v with pairs0 := v.pairs0 ++ [(leftIdx, rightIdx)] }
  else { v with pairs1 := v.pairs1 ++ [(leftIdx, rightIdx)] }

/-- The face-emission decision at the end of one edge rotation in
`voronoi_init` (`src/voronoi3d.h:469-478`): for the generator `g` and the
popped axis vertex `a`, interior faces (`a < vertex_end`) are stored only once
(under the convention `g < a`) with `sid 0`, while boundary faces
(`a ≥ ghost_offset`, the only other case the traversal admits) are always
stored with `sid 1`. -/
def voronoi_emit_face (v : Voronoi) (vertex_end g a : ℕ) : Voronoi :=
  if a < vertex_end then
    if g < a then voronoi_new_face v 0 g a else v
  else
    voronoi_new_face v 1 g a

lemma new_face0_ne_self (v : Voronoi) (g a : ℕ) : voronoi_new_face v 0 g a ≠ v := by
  intro h
  have := congrArg (fun w => w.pairs0.length) h
  simp [voronoi_new_face] at this

lemma new_face1_ne_self (v : Voronoi) (g a : ℕ) : voronoi_new_face v 1 g a ≠ v := by
  intro h
  have := congrArg (fun w => w.pairs1.length) h
  simp [voronoi_new_face] at this

lemma new_face0_ne_new_face1 (v : Voronoi) (g a g' a' : ℕ) :
    voronoi_new_face v 0 g a ≠ voronoi_new_face v 1 g' a' := by
  intro h
  have := congrArg (fun w => w.pairs1.length) h
  simp [voronoi_new_face] at this

/-- C8: during `voronoi_init`, writing `g` for the generator and `a` for the
neighbouring generator discovered by rotating around the Delaunay edge
`(g, a)` (which the traversal guarantees to be non-dummy, i.e. either
`a < vertex_end` or `a ≥ ghost_offset`), the face is appended to the interior
pair list (`sid 0`) exactly when `a` is below the ghost offset and `g < a`; it
is appended to the boundary pair list (`sid 1`) exactly when `a` is at or
above the ghost offset; otherwise nothing is emitted.  Consequently each
geometric interior face `{g, a}` between two real generators is emitted
exactly once: of the two rotations (one started at `g`, one at `a`), exactly
one appends the face. -/
theorem C8_voronoi_face_emission_correct (v v' : Voronoi)
    (vertex_end ghost_offset g a : ℕ) :
    (vertex_end ≤ ghost_offset → (a < vertex_end ∨ ghost_offset ≤ a) →
      ((voronoi_emit_face v vertex_end g a = voronoi_new_face v 0 g a ↔
          a < ghost_offset ∧ g < a) ∧
        (voronoi_emit_face v vertex_end g a = voronoi_new_face v 1 g a ↔
          ghost_offset ≤ a) ∧
        (voronoi_emit_face v vertex_end g a = v ↔ a < ghost_offset ∧ a ≤ g))) ∧
    (g < vertex_end → a < vertex_end → g ≠ a →
      ((voronoi_emit_face v vertex_end g a = voronoi_new_face v 0 g a ∧
          voronoi_emit_face v' vertex_end a g = v') ∨
        (voronoi_emit_face v vertex_end g a = v ∧
          voronoi_emit_face v' vertex_end a g = voronoi_new_face v' 0 a g))) := by
  constructor
  · intro hve hnd
    unfold voronoi_emit_face
    by_cases hav : a < vertex_end
    · rw [if_pos hav]
      have hag : a < ghost_offset := lt_of_lt_of_le hav hve
      by_cases hga : g < a
      · rw [if_pos hga]
        refine ⟨by simp [hag, hga], ?_, ?_⟩
        · constructor
          · intro h
            exact absurd h (new_face0_ne_new_face1 v g a g a)
          · intro h
            omega
        · constructor
          · intro h
            exact absurd h (new_face0_ne_self v g a)
          · intro h
            omega
      · rw [if_neg hga]
        refine ⟨?_, ?_, by simp [hag]; omega⟩
        · constructor
          · intro h
            exact absurd h.symm (new_face0_ne_self v g a)
          · intro h
            exact absurd h.2 hga
        · constructor
          · intro h
            exact absurd h.symm (new_face1_ne_self v g a)
          · intro h
            omega
    · rw [if_neg hav]
      have hag : ghost_offset ≤ a := hnd.resolve_left hav
      refine ⟨?_, by simp [hag], ?_⟩
      · constructor
        · intro h
          exact absurd h (Ne.symm (new_face0_ne_new_face1 v g a g a))
        · intro h
          omega
      · constructor
        · intro h
          exact absurd h (new_face1_ne_self v g a)
        · intro h
          omega
  · intro hgv hav hne
    unfold voronoi_emit_face
    rcases Nat.lt_or_ge g a with hga | hga
    · left
      rw [if_pos hav, if_pos hga, if_pos hgv, if_neg (by omega)]
      exact ⟨rfl, rfl⟩
    · right
      have hag : a < g := by omega
      rw [if_pos hav, if_neg (by omega), if_pos hgv, if_pos hag]
      exact ⟨rfl, rfl⟩

/-- Witness for C8: with `vertex_end = 5` and `ghost_offset = 8`, the pair
`(g, a) = (1, 9)` is a boundary face stored with `sid 1`, and the interior
pair `(1, 2)` is stored exactly once over its two traversal directions. -/
theorem C8_witness :
    ((5 : ℕ) ≤ 8 ∧ ((9 : ℕ) < 5 ∨ (8 : ℕ) ≤ 9) ∧
      (voronoi_emit_face ⟨[], []⟩ 5 1 9 = voronoi_new_face ⟨[], []⟩ 1 1 9 ↔
        (8 : ℕ) ≤ 9)) ∧
    ((1 : ℕ) < 5 ∧ (2 : ℕ) < 5 ∧ (1 : ℕ) ≠ 2 ∧
      ((voronoi_emit_face ⟨[], []⟩ 5 1 2 = voronoi_new_face ⟨[], []⟩ 0 1 2 ∧
          voronoi_emit_face ⟨[], []⟩ 5 2 1 = (⟨[], []⟩ : Voronoi)) ∨
        (voronoi_emit_face ⟨[], []⟩ 5 1 2 = (⟨[], []⟩ : Voronoi) ∧
          voronoi_emit_face ⟨[], []⟩ 5 2 1 = voronoi_new_face ⟨[], []⟩ 0 2 1))) :=
  ⟨⟨by decide, by decide,
      ((C8_voronoi_face_emission_correct ⟨[], []⟩ ⟨[], []⟩ 5 8 1 9).1
        (by decide) (by decide)).2.1⟩,
    by decide, by decide, by decide,
    (C8_voronoi_face_emission_correct ⟨[], []⟩ ⟨[], []⟩ 5 8 1 2).2
      (by decide) (by decide) (by decide)⟩

/-! ## 3D point location and insertion flips (claim C6)

`delaunay3d.h` includes `tetrahedron.h` and `queues.h`, which are not part of
the repository snapshot under `src/`; the tetrahedron record and its helpers
are modelled from the specification.  The `int_lifo_queue`s are modelled as
lists. -/

/-- Modelled from the spec: the `tetrahedron.h` Tetrahedron record (spec §3):
four vertex IDs, four neighbour IDs, four index-in-neighbour backpointers, and
the `active` flag used by the 3→2 flip slot recycling. -/
structure Tetrahedron where
  vertices : ℕ → ℕ
  neighbours : ℕ → ℕ
  index_in_neighbour : ℕ → ℕ
  active : Bool

/-- Modelled from the spec: `tetrahedron_init` writes the vertex tuple and
clears the active flag to "active" (spec §4.2). -/
def Tetrahedron.init (t : Tetrahedron) (v0 v1 v2 v3 : ℕ) : Tetrahedron :=
  { t with
    vertices := fun j =>
      if j = 0 then v0 else if j = 1 then v1 else if j = 2 then v2 else v3
    active := true }

/-- Modelled from the spec: `tetrahedron_swap_neighbour` writes one
neighbour/index pair (spec §4.2). -/
def Tetrahedron.swapNeighbour (t : Tetrahedron) (idx ngb idxInNgb : ℕ) :
    Tetrahedron :=
  { t with
    neighbours := fun j => if j = idx then ngb else t.neighbours j
    index_in_neighbour := fun j => if j = idx then idxInNgb else t.index_in_neighbour j }

/-- Modelled from the spec: `tetrahedron_swap_neighbours` writes all four
neighbour/index pairs at once (spec §4.2, `swap_neighbors_bulk`). -/
def Tetrahedron.swapNeighbours (t : Tetrahedron) (n0 n1 n2 n3 i0 i1 i2 i3 : ℕ) :
    Tetrahedron :=
  { t with
    neighbours := fun j =>
      if j = 0 then n0 else if j = 1 then n1 else if j = 2 then n2 else n3
    index_in_neighbour := fun j =>
      if j = 0 then i0 else if j = 1 then i1 else if j = 2 then i2 else i3 }

/-- The parts of the 3D `struct delaunay` (`src/delaunay3d.h:47-165`) the
insertion algorithms operate on. -/
structure Delaunay3D where
  integer_vertices : ℕ → P3
  tetrahedra : ℕ → Tetrahedron
  vertex_tetrahedron_links : ℕ → ℕ
  vertex_tetrahedron_index : ℕ → ℕ
  tetrahedron_index : ℕ
  free_indices : List ℕ
  tetrahedra_to_check : List ℕ
  last_tetrahedron : ℕ

/-- Write the tetrahedron record at index `i`. -/
def Delaunay3D.setTetrahedron (d : Delaunay3D) (i : ℕ) (tet : Tetrahedron) :
    Delaunay3D :=
  { d with tetrahedra := fun j => if j = i then tet else d.tetrahedra j }

/-- `delaunay_new_tetrahedron` (`src/delaunay3d.h:308-321`): pop a free slot if
available, else take the next fresh index. -/
def delaunay_new_tetrahedron (d : Delaunay3D) : Delaunay3D × ℕ :=
  match d.free_indices with
  | i :: rest => ({ d with free_indices := rest }, i)
  | [] => ({ d with tetrahedron_index := d.tetrahedron_index + 1 },
      d.tetrahedron_index)

/-- `delaunay_init_tetrahedron` (`src/delaunay3d.h:333-362`): initialize the
record, refresh the back-links of its four vertices, and touch
`last_tetrahedron`. -/
def delaunay_init_tetrahedron (d : Delaunay3D) (t v0 v1 v2 v3 : ℕ) : Delaunay3D :=
  let d1 := d.setTetrahedron t ((d.tetrahedra t).init v0 v1 v2 v3)
  { d1 with
    vertex_tetrahedron_links :=
      updFun (updFun (updFun (updFun d1.vertex_tetrahedron_links v0 t) v1 t) v2 t) v3 t
    vertex_tetrahedron_index :=
      updFun (updFun (updFun (updFun d1.vertex_tetrahedron_index v0 0) v1 1) v2 2) v3 3
    last_tetrahedron := t }

/-- `delaunay_one_to_four_flip` (`src/delaunay3d.h:749-793`): replace
tetrahedron `t` by four new tetrahedra, each formed by replacing one of its
vertices with `v`, wire up all neighbour relations, and enqueue the four new
tetrahedra for Delaunay checks. -/
def delaunay_one_to_four_flip (d : Delaunay3D) (v t : ℕ) : Delaunay3D :=
  let vs := (d.tetrahedra t).vertices
  let ngbs := (d.tetrahedra t).neighbours
  let idxs := (d.tetrahedra t).index_in_neighbour
  let dA := delaunay_init_tetrahedron d t (vs 0) (vs 1) (vs 2) v
  let p1 := delaunay_new_tetrahedron dA
  let t1 := p1.2
  let dB := delaunay_init_tetrahedron p1.1 t1 (vs 0) (vs 1) v (vs 3)
  let p2 := delaunay_new_tetrahedron dB
  let t2 := p2.2
  let dC := delaunay_init_tetrahedron p2.1 t2 (vs 0) v (vs 2) (vs 3)
  let p3 := delaunay_new_tetrahedron dC
  let t3 := p3.2
  let dD := delaunay_init_tetrahedron p3.1 t3 v (vs 1) (vs 2) (vs 3)
  let dE := dD.setTetrahedron t
    ((dD.tetrahedra t).swapNeighbours t3 t2 t1 (ngbs 3) 3 3 3 (idxs 3))
  let dF := dE.setTetrahedron t1
    ((dE.tetrahedra t1).swapNeighbours t3 t2 (ngbs 2) t 2 2 (idxs 2) 2)
  let dG := dF.setTetrahedron t2
    ((dF.tetrahedra t2).swapNeighbours t3 (ngbs 1) t1 t 1 (idxs 1) 1 1)
  let dH := dG.setTetrahedron t3
    ((dG.tetrahedra t3).swapNeighbours (ngbs 0) t2 t1 t (idxs 0) 0 0 0)
  let dI := dH.setTetrahedron (ngbs 0)
    ((dH.tetrahedra (ngbs 0)).swapNeighbour (idxs 0) t3 0)
  let dJ := dI.setTetrahedron (ngbs 1)
    ((dI.tetrahedra (ngbs 1)).swapNeighbour (idxs 1) t2 1)
  let dK := dJ.setTetrahedron (ngbs 2)
    ((dJ.tetrahedra (ngbs 2)).swapNeighbour (idxs 2) t1 2)
  let dL := dK.setTetrahedron (ngbs 3)
    ((dK.tetrahedra (ngbs 3)).swapNeighbour (idxs 3) t 3)
  { dL with tetrahedra_to_check := dL.tetrahedra_to_check ++ [t, t1, t2, t3] }

/-- Outcome of one iteration of the point-location loop of
`delaunay_find_tetrahedra_containing_vertex` (`src/delaunay3d.h:557-721`):
walk to a neighbour, successfully collect the tetrahedra containing the
vertex, or hit the impossible-case abort (three or more zero orientation
tests). -/
inductive TetLocateOutcome where
  | walk (next : ℕ)
  | found (tets : List ℕ)
  | impossible
  deriving DecidableEq, Repr

/-- The rotation of `delaunay_find_tetrahedra_containing_vertex` around the
axis edge `(a0, a1)` (`src/delaunay3d.h:700-717`): collect tetrahedra until
`last_t` reappears, advancing past the axis vertices.  Fuelled; `none` means
the walk did not close within the given fuel. -/
def rotateEdgeCollect (tets : ℕ → Tetrahedron) (a0 a1 last_t : ℕ) :
    ℕ → ℕ → ℕ → Option (List ℕ)
  | 0, _, _ => none
  | fuel + 1, next_t, next_vertex =>
    if next_t = last_t then some []
    else
      let nv1 := (next_vertex + 1) % 4
      let nv2 := if (tets next_t).vertices nv1 = a0 ∨ (tets next_t).vertices nv1 = a1
        then (nv1 + 1) % 4 else nv1
      let cur := if (tets next_t).vertices nv2 = a0 ∨ (tets next_t).vertices nv2 = a1
        then (nv2 + 1) % 4 else nv2
      match rotateEdgeCollect tets a0 a1 last_t fuel
          ((tets next_t).neighbours cur) ((tets next_t).index_in_neighbour cur) with
      | none => none
      | some l => some (next_t :: l)

/-- The zero-test bookkeeping of the location loop
(`src/delaunay3d.h:634-659`): the `non_axis_v_idx` slots pushed for each zero
test, in source order (`abce` → 3, `adbe` → 2, `acde` → 1, `bdce` → 0). -/
def zeroIndices (test_abce test_acde test_adbe test_bdce : ℤ) : List ℕ :=
  (if test_abce = 0 then [3] else []) ++ (if test_adbe = 0 then [2] else []) ++
    (if test_acde = 0 then [1] else []) ++ (if test_bdce = 0 then [0] else [])

/-- The inside-tetrahedron part of the location loop body
(`src/delaunay3d.h:633-720`), entered when no orientation test is positive:
push the containing tetrahedron and the neighbours across zero faces, abort on
more than two zeros, and on exactly two zeros collect the full fan around the
shared edge by rotation. -/
def findStepInside (d : Delaunay3D) (tIdx fuel : ℕ)
    (test_abce test_acde test_adbe test_bdce : ℤ) : Option TetLocateOutcome :=
  let tet := d.tetrahedra tIdx
  let zeros := zeroIndices test_abce test_acde test_adbe test_bdce
  if 2 < zeros.length then some .impossible
  else if zeros.length ≤ 1 then some (.found (tIdx :: zeros.map tet.neighbours))
  else
    let non_axis_idx0 := zeros.getD 0 0
    let non_axis_idx1 := zeros.getD 1 0
    let axis_idx0' := (non_axis_idx0 + 1) % 4
    let axis_idx0 := if axis_idx0' = non_axis_idx1 then (axis_idx0' + 1) % 4
      else axis_idx0'
    let axis_idx1 := 6 - axis_idx0 - non_axis_idx0 - non_axis_idx1
    let a0 := tet.vertices axis_idx0
    let a1 := tet.vertices axis_idx1
    let last_t := tet.neighbours non_axis_idx0
    let next_t := tet.neighbours non_axis_idx1
    let next_vertex := tet.index_in_neighbour non_axis_idx1
    match rotateEdgeCollect d.tetrahedra a0 a1 last_t fuel next_t next_vertex with
    | none => none
    | some l => some (.found ((tIdx :: l) ++ [last_t]))

/-- One iteration of the location loop of
`delaunay_find_tetrahedra_containing_vertex` (`src/delaunay3d.h:557-721`) at
the current tetrahedron `tIdx`: evaluate the four exact orientation tests of
`v` against the faces in source order, walking to a neighbour on the first
strictly positive one, else entering the inside case. -/
def delaunay_find_step (d : Delaunay3D) (v tIdx fuel : ℕ) :
    Option TetLocateOutcome :=
  let tet := d.tetrahedra tIdx
  let pa := d.integer_vertices (tet.vertices 0)
  let pb := d.integer_vertices (tet.vertices 1)
  let pc := d.integer_vertices (tet.vertices 2)
  let pd := d.integer_vertices (tet.vertices 3)
  let pe := d.integer_vertices v
  let test_abce := geometry3d_orient_exact pa pb pc pe
  if 0 < test_abce then some (.walk (tet.neighbours 3))
  else
    let test_acde := geometry3d_orient_exact pa pc pd pe
    if 0 < test_acde then some (.walk (tet.neighbours 1))
    else
      let test_adbe := geometry3d_orient_exact pa pd pb pe
      if 0 < test_adbe then some (.walk (tet.neighbours 2))
      else
        let test_bdce := geometry3d_orient_exact pb pd pc pe
        if 0 < test_bdce then some (.walk (tet.neighbours 0))
        else findStepInside d tIdx fuel test_abce test_acde test_adbe test_bdce

/-- The flip selected by `delaunay_add_vertex` (`src/delaunay3d.h:503-530`). -/
inductive FlipCall where
  | oneToFour (v t : ℕ)
  | twoToSix (v : ℕ) (t : List ℕ)
  | nToTwoN (v : ℕ) (t : List ℕ) (n : ℕ)
  | abortCase
  deriving DecidableEq, Repr

/-- The dispatch of `delaunay_add_vertex` (`src/delaunay3d.h:503-530`) on the
tetrahedra collected by point location. -/
def delaunay_add_vertex_dispatch (v : ℕ) (tets : List ℕ) : FlipCall :=
  let number_of_tetrahedra := tets.length
  if number_of_tetrahedra = 1 then .oneToFour v (tets.getD 0 0)
  else if number_of_tetrahedra = 2 then .twoToSix v tets
  else if 2 < number_of_tetrahedra then .nToTwoN v tets number_of_tetrahedra
  else .abortCase

/-- The four face tests of a tetrahedron against a query point sum to the
tetrahedron's own orientation determinant. -/
lemma orient3_test_sum (a b c d e : P3) :
    det3 (a.sub e) (b.sub e) (c.sub e) + det3 (a.sub e) (c.sub e) (d.sub e) +
      det3 (a.sub e) (d.sub e) (b.sub e) + det3 (b.sub e) (d.sub e) (c.sub e) =
      det3 (a.sub d) (b.sub d) (c.sub d) := by
  simp only [det3, P3.sub]
  ring

lemma zeroIndices_length (t1 t2 t3 t4 : ℤ) :
    (zeroIndices t1 t2 t3 t4).length =
      [t1, t2, t3, t4].countP (fun s => decide (s = 0)) := by
  by_cases h1 : t1 = 0 <;> by_cases h2 : t2 = 0 <;> by_cases h3 : t3 = 0 <;>
    by_cases h4 : t4 = 0 <;> simp [zeroIndices, h1, h2, h3, h4]

lemma findStepInside_impossible_iff (d : Delaunay3D) (tIdx fuel : ℕ)
    (t1 t2 t3 t4 : ℤ) :
    findStepInside d tIdx fuel t1 t2 t3 t4 = some .impossible ↔
      2 < (zeroIndices t1 t2 t3 t4).length := by
  unfold findStepInside
  by_cases h : 2 < (zeroIndices t1 t2 t3 t4).length
  · simp [h]
  · rw [if_neg h]
    simp only [h, iff_false]
    by_cases h1 : (zeroIndices t1 t2 t3 t4).length ≤ 1
    · rw [if_pos h1]
      simp
    · rw [if_neg h1]
      intro hc
      split at hc
      · simp at hc
      · simp at hc

lemma countZeros_three (s1 s2 s3 s4 : ℤ)
    (h : 3 ≤ [s1, s2, s3, s4].countP (fun s => decide (s = 0))) :
    (s2 = 0 ∧ s3 = 0 ∧ s4 = 0) ∨ (s1 = 0 ∧ s3 = 0 ∧ s4 = 0) ∨
      (s1 = 0 ∧ s2 = 0 ∧ s4 = 0) ∨ (s1 = 0 ∧ s2 = 0 ∧ s3 = 0) := by
  by_cases h1 : s1 = 0 <;> by_cases h2 : s2 = 0 <;> by_cases h3 : s3 = 0 <;>
    by_cases h4 : s4 = 0 <;> simp_all [List.countP_cons]

/-- The point-location abort condition: for a correctly oriented tetrahedron
(negative exact orientation, the convention checked by the 3D builder,
`src/delaunay3d.h:589-597`), one location step aborts exactly when three or
more of the four orientation tests are zero. -/
lemma find_step_impossible_iff (d : Delaunay3D) (v tIdx fuel : ℕ)
    (horient : geometry3d_orient_exact
      (d.integer_vertices ((d.tetrahedra tIdx).vertices 0))
      (d.integer_vertices ((d.tetrahedra tIdx).vertices 1))
      (d.integer_vertices ((d.tetrahedra tIdx).vertices 2))
      (d.integer_vertices ((d.tetrahedra tIdx).vertices 3)) < 0) :
    (delaunay_find_step d v tIdx fuel = some .impossible ↔
      3 ≤ ([geometry3d_orient_exact
            (d.integer_vertices ((d.tetrahedra tIdx).vertices 0))
            (d.integer_vertices ((d.tetrahedra tIdx).vertices 1))
            (d.integer_vertices ((d.tetrahedra tIdx).vertices 2))
            (d.integer_vertices v),
          geometry3d_orient_exact
            (d.integer_vertices ((d.tetrahedra tIdx).vertices 0))
            (d.integer_vertices ((d.tetrahedra tIdx).vertices 2))
            (d.integer_vertices ((d.tetrahedra tIdx).vertices 3))
            (d.integer_vertices v),
          geometry3d_orient_exact
            (d.integer_vertices ((d.tetrahedra tIdx).vertices 0))
            (d.integer_vertices ((d.tetrahedra tIdx).vertices 3))
            (d.integer_vertices ((d.tetrahedra tIdx).vertices 1))
            (d.integer_vertices v),
          geometry3d_orient_exact
            (d.integer_vertices ((d.tetrahedra tIdx).vertices 1))
            (d.integer_vertices ((d.tetrahedra tIdx).vertices 3))
            (d.integer_vertices ((d.tetrahedra tIdx).vertices 2))
            (d.integer_vertices v)].countP (fun s => decide (s = 0)))) := by
  set pa := d.integer_vertices ((d.tetrahedra tIdx).vertices 0) with hpa
  set pb := d.integer_vertices ((d.tetrahedra tIdx).vertices 1) with hpb
  set pc := d.integer_vertices ((d.tetrahedra tIdx).vertices 2) with hpc
  set pd := d.integer_vertices ((d.tetrahedra tIdx).vertices 3) with hpd
  set pe := d.integer_vertices v with hpe
  have hD0 : det3 (pa.sub pd) (pb.sub pd) (pc.sub pd) < 0 := by
    rw [geometry3d_orient_exact, int_sign_neg_iff] at horient
    exact horient
  have hsum := orient3_test_sum pa pb pc pd pe
  constructor
  · intro h
    unfold delaunay_find_step at h
    by_cases c1 : 0 < geometry3d_orient_exact pa pb pc pe
    · rw [if_pos c1] at h
      simp at h
    · rw [if_neg c1] at h
      by_cases c2 : 0 < geometry3d_orient_exact pa pc pd pe
      · rw [if_pos c2] at h
        simp at h
      · rw [if_neg c2] at h
        by_cases c3 : 0 < geometry3d_orient_exact pa pd pb pe
        · rw [if_pos c3] at h
          simp at h
        · rw [if_neg c3] at h
          by_cases c4 : 0 < geometry3d_orient_exact pb pd pc pe
          · rw [if_pos c4] at h
            simp at h
          · rw [if_neg c4] at h
            rw [findStepInside_impossible_iff] at h
            rw [zeroIndices_length] at h
            rw [hpa, hpb, hpc, hpd, hpe]
            omega
  · intro h
    have h3 := countZeros_three _ _ _ _ h
    have hz : ∀ p q r : P3, geometry3d_orient_exact p q r pe = 0 →
        det3 (p.sub pe) (q.sub pe) (r.sub pe) = 0 := by
      intro p q r hval
      rw [geometry3d_orient_exact, Int.sign_eq_zero_iff_zero] at hval
      exact hval
    have hnonpos : ¬ 0 < geometry3d_orient_exact pa pb pc pe ∧
        ¬ 0 < geometry3d_orient_exact pa pc pd pe ∧
        ¬ 0 < geometry3d_orient_exact pa pd pb pe ∧
        ¬ 0 < geometry3d_orient_exact pb pd pc pe := by
      have hp : ∀ p q r : P3, 0 < geometry3d_orient_exact p q r pe →
          0 < det3 (p.sub pe) (q.sub pe) (r.sub pe) := by
        intro p q r hval
        rw [geometry3d_orient_exact, int_sign_pos_iff] at hval
        exact hval
      rcases h3 with ⟨e2, e3, e4⟩ | ⟨e1, e3, e4⟩ | ⟨e1, e2, e4⟩ | ⟨e1, e2, e3⟩ <;>
        refine ⟨?_, ?_, ?_, ?_⟩ <;> intro hc <;>
        first
          | (have hcpos := hp _ _ _ hc
             have z1 := hz _ _ _ (by assumption : geometry3d_orient_exact pa pb pc pe = 0)
             linarith [hz _ _ _ e2])
          | (exact absurd hc (by
              rw [geometry3d_orient_exact, int_sign_pos_iff]
              have zs : det3 (pa.sub pe) (pb.sub pe) (pc.sub pe) +
                  det3 (pa.sub pe) (pc.sub pe) (pd.sub pe) +
                  det3 (pa.sub pe) (pd.sub pe) (pb.sub pe) +
                  det3 (pb.sub pe) (pd.sub pe) (pc.sub pe) =
                  det3 (pa.sub pd) (pb.sub pd) (pc.sub pd) := hsum
              first
                | (have z2 := hz _ _ _ e2
                   have z3 := hz _ _ _ e3
                   have z4 := hz _ _ _ e4
                   intro hcd
                   linarith)
                | (have z1 := hz _ _ _ e1
                   have z3 := hz _ _ _ e3
                   have z4 := hz _ _ _ e4
                   intro hcd
                   linarith)
                | (have z1 := hz _ _ _ e1
                   have z2 := hz _ _ _ e2
                   have z4 := hz _ _ _ e4
                   intro hcd
                   linarith)
                | (have z1 := hz _ _ _ e1
                   have z2 := hz _ _ _ e2
                   have z3 := hz _ _ _ e3
                   intro hcd
                   linarith)))
    obtain ⟨c1, c2, c3, c4⟩ := hnonpos
    unfold delaunay_find_step
    rw [if_neg c1, if_neg c2, if_neg c3, if_neg c4,
      findStepInside_impossible_iff, zeroIndices_length]
    rw [hpa, hpb, hpc, hpd, hpe] at h
    omega

@[simp]
lemma Tetrahedron_swapNeighbour_vertices (t : Tetrahedron) (idx ngb k : ℕ) :
    (t.swapNeighbour idx ngb k).vertices = t.vertices := rfl

@[simp]
lemma Tetrahedron_swapNeighbours_vertices (t : Tetrahedron)
    (n0 n1 n2 n3 i0 i1 i2 i3 : ℕ) :
    (t.swapNeighbours n0 n1 n2 n3 i0 i1 i2 i3).vertices = t.vertices := rfl

lemma setTetrahedron_tetrahedra (d : Delaunay3D) (i : ℕ) (tet : Tetrahedron)
    (j : ℕ) :
    (d.setTetrahedron i tet).tetrahedra j = if j = i then tet else d.tetrahedra j := rfl

/-- Projecting the vertex tuple through a tetrahedron write. -/
@[simp]
lemma setTetrahedron_tetrahedra_vertices (d : Delaunay3D) (i : ℕ)
    (tet : Tetrahedron) (j : ℕ) :
    ((d.setTetrahedron i tet).tetrahedra j).vertices =
      if j = i then tet.vertices else (d.tetrahedra j).vertices := by
  by_cases h : j = i <;> simp [Delaunay3D.setTetrahedron, h]

@[simp]
lemma setTetrahedron_check (d : Delaunay3D) (i : ℕ) (tet : Tetrahedron) :
    (d.setTetrahedron i tet).tetrahedra_to_check = d.tetrahedra_to_check := rfl

@[simp]
lemma setTetrahedron_free (d : Delaunay3D) (i : ℕ) (tet : Tetrahedron) :
    (d.setTetrahedron i tet).free_indices = d.free_indices := rfl

@[simp]
lemma setTetrahedron_index (d : Delaunay3D) (i : ℕ) (tet : Tetrahedron) :
    (d.setTetrahedron i tet).tetrahedron_index = d.tetrahedron_index := rfl

@[simp]
lemma init_tetrahedron_tetrahedra (d : Delaunay3D) (t v0 v1 v2 v3 j : ℕ) :
    (delaunay_init_tetrahedron d t v0 v1 v2 v3).tetrahedra j =
      if j = t then (d.tetrahedra t).init v0 v1 v2 v3 else d.tetrahedra j := rfl

@[simp]
lemma init_tetrahedron_check (d : Delaunay3D) (t v0 v1 v2 v3 : ℕ) :
    (delaunay_init_tetrahedron d t v0 v1 v2 v3).tetrahedra_to_check =
      d.tetrahedra_to_check := rfl

@[simp]
lemma init_tetrahedron_free (d : Delaunay3D) (t v0 v1 v2 v3 : ℕ) :
    (delaunay_init_tetrahedron d t v0 v1 v2 v3).free_indices = d.free_indices := rfl

@[simp]
lemma init_tetrahedron_index (d : Delaunay3D) (t v0 v1 v2 v3 : ℕ) :
    (delaunay_init_tetrahedron d t v0 v1 v2 v3).tetrahedron_index =
      d.tetrahedron_index := rfl

/-- The 1→4 flip replaces the containing tetrahedron with four new tetrahedra,
each formed by replacing one of its vertices with `v`; with an empty freelist
the three extra tetrahedra take the next three fresh indices, and all four are
enqueued for Delaunay checks. -/
lemma oneToFour_spec (d : Delaunay3D) (v t : ℕ)
    (hfree : d.free_indices = []) (ht : t < d.tetrahedron_index)
    (hngb : ∀ k, k < 4 → (d.tetrahedra t).neighbours k ≠ t ∧
      (d.tetrahedra t).neighbours k < d.tetrahedron_index) :
    ((delaunay_one_to_four_flip d v t).tetrahedra t).vertices 0 =
        (d.tetrahedra t).vertices 0 ∧
      ((delaunay_one_to_four_flip d v t).tetrahedra t).vertices 1 =
        (d.tetrahedra t).vertices 1 ∧
      ((delaunay_one_to_four_flip d v t).tetrahedra t).vertices 2 =
        (d.tetrahedra t).vertices 2 ∧
      ((delaunay_one_to_four_flip d v t).tetrahedra t).vertices 3 = v ∧
      ((delaunay_one_to_four_flip d v t).tetrahedra d.tetrahedron_index).vertices 0 =
        (d.tetrahedra t).vertices 0 ∧
      ((delaunay_one_to_four_flip d v t).tetrahedra d.tetrahedron_index).vertices 1 =
        (d.tetrahedra t).vertices 1 ∧
      ((delaunay_one_to_four_flip d v t).tetrahedra d.tetrahedron_index).vertices 2 = v ∧
      ((delaunay_one_to_four_flip d v t).tetrahedra d.tetrahedron_index).vertices 3 =
        (d.tetrahedra t).vertices 3 ∧
      ((delaunay_one_to_four_flip d v t).tetrahedra (d.tetrahedron_index + 1)).vertices 0 =
        (d.tetrahedra t).vertices 0 ∧
      ((delaunay_one_to_four_flip d v t).tetrahedra (d.tetrahedron_index + 1)).vertices 1 = v ∧
      ((delaunay_one_to_four_flip d v t).tetrahedra (d.tetrahedron_index + 1)).vertices 2 =
        (d.tetrahedra t).vertices 2 ∧
      ((delaunay_one_to_four_flip d v t).tetrahedra (d.tetrahedron_index + 1)).vertices 3 =
        (d.tetrahedra t).vertices 3 ∧
      ((delaunay_one_to_four_flip d v t).tetrahedra (d.tetrahedron_index + 2)).vertices 0 = v ∧
      ((delaunay_one_to_four_flip d v t).tetrahedra (d.tetrahedron_index + 2)).vertices 1 =
        (d.tetrahedra t).vertices 1 ∧
      ((delaunay_one_to_four_flip d v t).tetrahedra (d.tetrahedron_index + 2)).vertices 2 =
        (d.tetrahedra t).vertices 2 ∧
      ((delaunay_one_to_four_flip d v t).tetrahedra (d.tetrahedron_index + 2)).vertices 3 =
        (d.tetrahedra t).vertices 3 ∧
      (delaunay_one_to_four_flip d v t).tetrahedra_to_check =
        d.tetrahedra_to_check ++
          [t, d.tetrahedron_index, d.tetrahedron_index + 1, d.tetrahedron_index + 2] := by
  have e1 : ¬ t = d.tetrahedron_index := by omega
  have e2 : ¬ t = d.tetrahedron_index + 1 := by omega
  have e3 : ¬ t = d.tetrahedron_index + 2 := by omega
  have e4 : ¬ d.tetrahedron_index = t := by omega
  have e5 : ¬ d.tetrahedron_index = d.tetrahedron_index + 1 := by omega
  have e6 : ¬ d.tetrahedron_index = d.tetrahedron_index + 2 := by omega
  have e7 : ¬ d.tetrahedron_index + 1 = t := by omega
  have e8 : ¬ d.tetrahedron_index + 1 = d.tetrahedron_index := by omega
  have e9 : ¬ d.tetrahedron_index + 1 = d.tetrahedron_index + 2 := by omega
  have e10 : ¬ d.tetrahedron_index + 2 = t := by omega
  have e11 : ¬ d.tetrahedron_index + 2 = d.tetrahedron_index := by omega
  have e12 : ¬ d.tetrahedron_index + 2 = d.tetrahedron_index + 1 := by omega
  have e13 : d.tetrahedron_index + 1 + 1 = d.tetrahedron_index + 2 := by omega
  obtain ⟨hn0, hn0lt⟩ := hngb 0 (by omega)
  obtain ⟨hn1, hn1lt⟩ := hngb 1 (by omega)
  obtain ⟨hn2, hn2lt⟩ := hngb 2 (by omega)
  obtain ⟨hn3, hn3lt⟩ := hngb 3 (by omega)
  have f1 : ¬ t = (d.tetrahedra t).neighbours 0 := fun h => hn0 h.symm
  have f2 : ¬ t = (d.tetrahedra t).neighbours 1 := fun h => hn1 h.symm
  have f3 : ¬ t = (d.tetrahedra t).neighbours 2 := fun h => hn2 h.symm
  have f4 : ¬ t = (d.tetrahedra t).neighbours 3 := fun h => hn3 h.symm
  have g1 : ¬ d.tetrahedron_index = (d.tetrahedra t).neighbours 0 := by omega
  have g2 : ¬ d.tetrahedron_index = (d.tetrahedra t).neighbours 1 := by omega
  have g3 : ¬ d.tetrahedron_index = (d.tetrahedra t).neighbours 2 := by omega
  have g4 : ¬ d.tetrahedron_index = (d.tetrahedra t).neighbours 3 := by omega
  have g5 : ¬ d.tetrahedron_index + 1 = (d.tetrahedra t).neighbours 0 := by omega
  have g6 : ¬ d.tetrahedron_index + 1 = (d.tetrahedra t).neighbours 1 := by omega
  have g7 : ¬ d.tetrahedron_index + 1 = (d.tetrahedra t).neighbours 2 := by omega
  have g8 : ¬ d.tetrahedron_index + 1 = (d.tetrahedra t).neighbours 3 := by omega
  have g9 : ¬ d.tetrahedron_index + 2 = (d.tetrahedra t).neighbours 0 := by omega
  have g10 : ¬ d.tetrahedron_index + 2 = (d.tetrahedra t).neighbours 1 := by omega
  have g11 : ¬ d.tetrahedron_index + 2 = (d.tetrahedra t).neighbours 2 := by omega
  have g12 : ¬ d.tetrahedron_index + 2 = (d.tetrahedra t).neighbours 3 := by omega
  refine ⟨?_, ?_, ?_, ?_, ?_, ?_, ?_, ?_, ?_, ?_, ?_, ?_, ?_, ?_, ?_, ?_, ?_⟩ <;>
    simp [delaunay_one_to_four_flip, delaunay_new_tetrahedron, hfree,
      Tetrahedron.init, e1, e2, e3, e4, e5, e6, e7, e8, e9, e10, e11, e12, e13,
      f1, f2, f3, f4, g1, g2, g3, g4, g5, g6, g7, g8, g9, g10, g11, g12]

/-- C6: the three facts the claim asserts about vertex insertion in 3D.
First, for a correctly oriented current tetrahedron, one step of the
point-location loop aborts exactly when three or more of the four exact
orientation tests of `v` against its faces are zero.  Second,
`delaunay_add_vertex` dispatches on the number `k` of collected tetrahedra:
`k = 1` performs the 1→4 flip on the single containing tetrahedron, `k = 2`
the 2→6 flip, and `k = n ≥ 3` the n→2n flip on the full collected fan (and the
remaining case `k = 0` aborts).  Third, the 1→4 flip replaces the containing
tetrahedron by four tetrahedra, each formed by replacing one of its vertices
with `v`, and enqueues all four. -/
theorem C6_add_vertex_split_correct :
    (∀ (d : Delaunay3D) (v tIdx fuel : ℕ),
      geometry3d_orient_exact
          (d.integer_vertices ((d.tetrahedra tIdx).vertices 0))
          (d.integer_vertices ((d.tetrahedra tIdx).vertices 1))
          (d.integer_vertices ((d.tetrahedra tIdx).vertices 2))
          (d.integer_vertices ((d.tetrahedra tIdx).vertices 3)) < 0 →
        (delaunay_find_step d v tIdx fuel = some .impossible ↔
          3 ≤ ([geometry3d_orient_exact
                (d.integer_vertices ((d.tetrahedra tIdx).vertices 0))
                (d.integer_vertices ((d.tetrahedra tIdx).vertices 1))
                (d.integer_vertices ((d.tetrahedra tIdx).vertices 2))
                (d.integer_vertices v),
              geometry3d_orient_exact
                (d.integer_vertices ((d.tetrahedra tIdx).vertices 0))
                (d.integer_vertices ((d.tetrahedra tIdx).vertices 2))
                (d.integer_vertices ((d.tetrahedra tIdx).vertices 3))
                (d.integer_vertices v),
              geometry3d_orient_exact
                (d.integer_vertices ((d.tetrahedra tIdx).vertices 0))
                (d.integer_vertices ((d.tetrahedra tIdx).vertices 3))
                (d.integer_vertices ((d.tetrahedra tIdx).vertices 1))
                (d.integer_vertices v),
              geometry3d_orient_exact
                (d.integer_vertices ((d.tetrahedra tIdx).vertices 1))
                (d.integer_vertices ((d.tetrahedra tIdx).vertices 3))
                (d.integer_vertices ((d.tetrahedra tIdx).vertices 2))
                (d.integer_vertices v)].countP (fun s => decide (s = 0))))) ∧
    (∀ (v : ℕ) (tets : List ℕ),
      (tets.length = 1 →
        delaunay_add_vertex_dispatch v tets = .oneToFour v (tets.getD 0 0)) ∧
      (tets.length = 2 → delaunay_add_vertex_dispatch v tets = .twoToSix v tets) ∧
      (2 < tets.length →
        delaunay_add_vertex_dispatch v tets = .nToTwoN v tets tets.length) ∧
      (tets.length = 0 → delaunay_add_vertex_dispatch v tets = .abortCase)) ∧
    (∀ (d : Delaunay3D) (v t : ℕ), d.free_indices = [] → t < d.tetrahedron_index →
      (∀ k, k < 4 → (d.tetrahedra t).neighbours k ≠ t ∧
        (d.tetrahedra t).neighbours k < d.tetrahedron_index) →
      ((delaunay_one_to_four_flip d v t).tetrahedra t).vertices 0 =
          (d.tetrahedra t).vertices 0 ∧
        ((delaunay_one_to_four_flip d v t).tetrahedra t).vertices 1 =
          (d.tetrahedra t).vertices 1 ∧
        ((delaunay_one_to_four_flip d v t).tetrahedra t).vertices 2 =
          (d.tetrahedra t).vertices 2 ∧
        ((delaunay_one_to_four_flip d v t).tetrahedra t).vertices 3 = v ∧
        ((delaunay_one_to_four_flip d v t).tetrahedra d.tetrahedron_index).vertices 0 =
          (d.tetrahedra t).vertices 0 ∧
        ((delaunay_one_to_four_flip d v t).tetrahedra d.tetrahedron_index).vertices 1 =
          (d.tetrahedra t).vertices 1 ∧
        ((delaunay_one_to_four_flip d v t).tetrahedra d.tetrahedron_index).vertices 2 = v ∧
        ((delaunay_one_to_four_flip d v t).tetrahedra d.tetrahedron_index).vertices 3 =
          (d.tetrahedra t).vertices 3 ∧
        ((delaunay_one_to_four_flip d v t).tetrahedra (d.tetrahedron_index + 1)).vertices 0 =
          (d.tetrahedra t).vertices 0 ∧
        ((delaunay_one_to_four_flip d v t).tetrahedra (d.tetrahedron_index + 1)).vertices 1 = v ∧
        ((delaunay_one_to_four_flip d v t).tetrahedra (d.tetrahedron_index + 1)).vertices 2 =
          (d.tetrahedra t).vertices 2 ∧
        ((delaunay_one_to_four_flip d v t).tetrahedra (d.tetrahedron_index + 1)).vertices 3 =
          (d.tetrahedra t).vertices 3 ∧
        ((delaunay_one_to_four_flip d v t).tetrahedra (d.tetrahedron_index + 2)).vertices 0 = v ∧
        ((delaunay_one_to_four_flip d v t).tetrahedra (d.tetrahedron_index + 2)).vertices 1 =
          (d.tetrahedra t).vertices 1 ∧
        ((delaunay_one_to_four_flip d v t).tetrahedra (d.tetrahedron_index + 2)).vertices 2 =
          (d.tetrahedra t).vertices 2 ∧
        ((delaunay_one_to_four_flip d v t).tetrahedra (d.tetrahedron_index + 2)).vertices 3 =
          (d.tetrahedra t).vertices 3 ∧
        (delaunay_one_to_four_flip d v t).tetrahedra_to_check =
          d.tetrahedra_to_check ++
            [t, d.tetrahedron_index, d.tetrahedron_index + 1, d.tetrahedron_index + 2]) := by
  refine ⟨?_, ?_, ?_⟩
  · intro d v tIdx fuel horient
    exact find_step_impossible_iff d v tIdx fuel horient
  · intro v tets
    refine ⟨?_, ?_, ?_, ?_⟩ <;> intro hlen
    · simp [delaunay_add_vertex_dispatch, hlen]
    · simp [delaunay_add_vertex_dispatch, hlen]
    · have hne1 : ¬ tets.length = 1 := by omega
      have hne2 : ¬ tets.length = 2 := by omega
      simp [delaunay_add_vertex_dispatch, hne1, hne2, hlen]
    · simp [delaunay_add_vertex_dispatch, hlen]
  · intro d v t hfree ht hngb
    exact oneToFour_spec d v t hfree ht hngb

/-- The concrete mesh used in the C6 witness: the positively oriented (in the
builder's convention, negative exact orientation) tetrahedron with corners
`(0,0,0), (4,0,0), (0,4,0), (0,0,4)` at index 4, with vertex 0 at `(1,1,1)`
strictly inside it. -/
def tetDemoState : Delaunay3D :=
  { integer_vertices := fun i =>
      if i = 10 then ⟨0, 0, 0⟩ else if i = 11 then ⟨4, 0, 0⟩
      else if i = 12 then ⟨0, 4, 0⟩ else if i = 13 then ⟨0, 0, 4⟩ else ⟨1, 1, 1⟩
    tetrahedra := fun _ =>
      { vertices := fun j =>
          if j = 0 then 10 else if j = 1 then 11 else if j = 2 then 12 else 13
        neighbours := fun j => j
        index_in_neighbour := fun j => j
        active := true }
    vertex_tetrahedron_links := fun _ => 4
    vertex_tetrahedron_index := fun _ => 0
    tetrahedron_index := 5
    free_indices := []
    tetrahedra_to_check := []
    last_tetrahedron := 4 }

/-- Witness for C6: the hypotheses of all three parts hold on `tetDemoState`
(correct orientation of the current tetrahedron, empty freelist, in-range
tetrahedron and sane neighbours), and the theorem applies there. -/
theorem C6_witness :
    (geometry3d_orient_exact
        (tetDemoState.integer_vertices ((tetDemoState.tetrahedra 4).vertices 0))
        (tetDemoState.integer_vertices ((tetDemoState.tetrahedra 4).vertices 1))
        (tetDemoState.integer_vertices ((tetDemoState.tetrahedra 4).vertices 2))
        (tetDemoState.integer_vertices ((tetDemoState.tetrahedra 4).vertices 3)) < 0 ∧
      tetDemoState.free_indices = [] ∧ (4 : ℕ) < tetDemoState.tetrahedron_index ∧
      (∀ k, k < 4 → (tetDemoState.tetrahedra 4).neighbours k ≠ 4 ∧
        (tetDemoState.tetrahedra 4).neighbours k < tetDemoState.tetrahedron_index) ∧
      ([(9 : ℕ)] : List ℕ).length = 1) ∧
    ((delaunay_find_step tetDemoState 0 4 5 = some .impossible ↔
        3 ≤ ([geometry3d_orient_exact
              (tetDemoState.integer_vertices ((tetDemoState.tetrahedra 4).vertices 0))
              (tetDemoState.integer_vertices ((tetDemoState.tetrahedra 4).vertices 1))
              (tetDemoState.integer_vertices ((tetDemoState.tetrahedra 4).vertices 2))
              (tetDemoState.integer_vertices 0),
            geometry3d_orient_exact
              (tetDemoState.integer_vertices ((tetDemoState.tetrahedra 4).vertices 0))
              (tetDemoState.integer_vertices ((tetDemoState.tetrahedra 4).vertices 2))
              (tetDemoState.integer_vertices ((tetDemoState.tetrahedra 4).vertices 3))
              (tetDemoState.integer_vertices 0),
            geometry3d_orient_exact
              (tetDemoState.integer_vertices ((tetDemoState.tetrahedra 4).vertices 0))
              (tetDemoState.integer_vertices ((tetDemoState.tetrahedra 4).vertices 3))
              (tetDemoState.integer_vertices ((tetDemoState.tetrahedra 4).vertices 1))
              (tetDemoState.integer_vertices 0),
            geometry3d_orient_exact
              (tetDemoState.integer_vertices ((tetDemoState.tetrahedra 4).vertices 1))
              (tetDemoState.integer_vertices ((tetDemoState.tetrahedra 4).vertices 3))
              (tetDemoState.integer_vertices ((tetDemoState.tetrahedra 4).vertices 2))
              (tetDemoState.integer_vertices 0)].countP (fun s => decide (s = 0)))) ∧
      delaunay_add_vertex_dispatch 7 [9] =
        .oneToFour 7 (([(9 : ℕ)] : List ℕ).getD 0 0) ∧
      ((delaunay_one_to_four_flip tetDemoState 0 4).tetrahedra 4).vertices 3 = 0 ∧
      (delaunay_one_to_four_flip tetDemoState 0 4).tetrahedra_to_check =
        tetDemoState.tetrahedra_to_check ++ [4, 5, 6, 7]) :=
  ⟨⟨by decide, by decide, by decide, by decide, by decide⟩,
    C6_add_vertex_split_correct.1 tetDemoState 0 4 5 (by decide),
    (C6_add_vertex_split_correct.2.1 7 [9]).1 (by decide),
    (C6_add_vertex_split_correct.2.2 tetDemoState 0 4 (by decide) (by decide)
      (by decide)).2.2.2.1,
    (C6_add_vertex_split_correct.2.2 tetDemoState 0 4 (by decide) (by decide)
      (by decide)).2.2.2.2.2.2.2.2.2.2.2.2.2.2.2.2⟩

end CVoronoi
